import Mathlib

/-!
# Lumos Vulkan backend: shader reflection, command buffers and frame submission

A shallow embedding of

* `Lumos/Platform/Vulkan/VKShader.cpp` (`GetVulkanFormat`,
  `GetStrideFromVulkanFormat`, `VKShader::Init`, `VKShader::PreProcess`,
  `VKShader::ReadShaderFile`),
* `Lumos/Platform/Vulkan/VKRenderer.cpp` (`OnResize`, `AcquireNextImage`,
  `Begin`, `BindDescriptorSetsInternal`),
* `Lumos/Platform/Vulkan/VKCommandBuffer.h` (`CommandBufferState`),

followed by the properties established about them.

Conventions.  A `uint32_t` is a `Nat` and every arithmetic operation on it is
reduced modulo `2 ^ 32`.  Reading or writing an array outside its bounds is
undefined behaviour in the source; the embedding makes it explicit as the
result `none`.  Calls into collaborators (logging, the swapchain, the Vulkan
entry points) are recorded as a trace of `Call` values.  What the SPIRV-Cross
compiler reports for a resource (decorations, type, active ranges) is an input
of the embedding, carried by `Resource`.  A `std::string` is a list of
characters and a `std::map` a finite partial function.
-/

namespace Lumos
namespace Graphics

/-! ## Machine integers -/

/-- Number of values of a `uint32_t`. -/
def UINT32_MOD : Nat := 4294967296

/-! ## Data model of the shader reflector -/

/-- The stage kinds named by `VKShader.cpp` (`ShaderType::...`). -/
inductive ShaderType where
  | VERTEX
  | FRAGMENT
  | GEOMETRY
  | TESSELLATION_CONTROL
  | TESSELLATION_EVALUATION
  | COMPUTE
  | UNKNOWN
  deriving DecidableEq, Repr

/-- The base numeric kinds of `spirv_cross::SPIRType::BaseType`. -/
inductive BaseType where
  | Unknown
  | Void
  | Boolean
  | SByte
  | UByte
  | Short
  | UShort
  | Int
  | UInt
  | Int64
  | UInt64
  | AtomicCounter
  | Half
  | Float
  | Double
  | Struct
  | Image
  | SampledImage
  | Sampler
  deriving DecidableEq, Repr

/-- The part of `spirv_cross::SPIRType` read by the reflector: the base kind,
the component count and the array dimensions. -/
structure SPIRType where
  basetype : BaseType
  vecsize : Nat
  array : List Nat
  deriving DecidableEq, Repr

/-- The `VkFormat` values named in `VKShader.cpp`; every other value of the
enumeration is `VK_FORMAT_OTHER` with its numeric code. -/
inductive VkFormat where
  | VK_FORMAT_R8_SINT
  | VK_FORMAT_R32_UINT
  | VK_FORMAT_R32_SINT
  | VK_FORMAT_R32_SFLOAT
  | VK_FORMAT_R32G32_UINT
  | VK_FORMAT_R32G32_SINT
  | VK_FORMAT_R32G32_SFLOAT
  | VK_FORMAT_R32G32B32_UINT
  | VK_FORMAT_R32G32B32_SINT
  | VK_FORMAT_R32G32B32_SFLOAT
  | VK_FORMAT_R32G32B32A32_UINT
  | VK_FORMAT_R32G32B32A32_SINT
  | VK_FORMAT_R32G32B32A32_SFLOAT
  | VK_FORMAT_R64_SFLOAT
  | VK_FORMAT_R64G64_SFLOAT
  | VK_FORMAT_R64G64B64_SFLOAT
  | VK_FORMAT_R64G64B64A64_SFLOAT
  | VK_FORMAT_OTHER (code : Nat)
  deriving DecidableEq, Repr

/-- The two descriptor kinds the reflector records
(`Graphics::DescriptorType::...`). -/
inductive DescriptorType where
  | UNIFORM_BUFFER
  | IMAGE_SAMPLER
  deriving DecidableEq, Repr

/-- One entry of `comp.get_active_buffer_ranges`. -/
structure BufferRange where
  index : Nat
  offset : Nat
  range : Nat
  deriving DecidableEq, Repr

/-- What the SPIRV-Cross compiler answers about one `spirv_cross::Resource`:
its decorations (`get_decoration`), its type (`get_type`) and its active
buffer ranges (`get_active_buffer_ranges`). -/
structure Resource where
  decorationBinding : Nat
  decorationLocation : Nat
  decorationDescriptorSet : Nat
  decorationOffset : Nat
  type : SPIRType
  activeBufferRanges : List BufferRange
  deriving DecidableEq, Repr

/-- The resource listing `comp.get_shader_resources()` of one stage. -/
structure ShaderResources where
  stage_inputs : List Resource
  uniform_buffers : List Resource
  push_constant_buffers : List Resource
  sampled_images : List Resource
  deriving DecidableEq, Repr

/-- `VkVertexInputAttributeDescription`. -/
structure VkVertexInputAttributeDescription where
  location : Nat
  binding : Nat
  format : VkFormat
  offset : Nat
  deriving DecidableEq, Repr

/-- One element of `m_DescriptorLayoutInfo`, in the order of the aggregate
initialiser `{type, stage, binding, set, count}`. -/
structure DescriptorLayoutInfo where
  type : DescriptorType
  stage : ShaderType
  binding : Nat
  set : Nat
  count : Nat
  deriving DecidableEq, Repr

/-- One element of `m_PushConstants`.  `data` is the owned byte buffer: `none`
for the null pointer, `some n` for a buffer of `n` bytes obtained from
`new uint8_t[n]` (its contents are not initialised by the source). -/
structure PushConstant where
  size : Nat
  shaderStage : ShaderType
  data : Option Nat
  deriving DecidableEq, Repr

/-- The members of `VKShader` that hold the outcome of reflection.  The array
`m_ShaderStages` of `VkPipelineShaderStageCreateInfo` and the shader modules
created through `vkCreateShaderModule` belong to the Vulkan collaborator and
are not part of the embedding. -/
structure VKShader where
  m_StageCount : Nat
  m_ShaderTypes : List ShaderType
  m_VertexInputStride : Nat
  m_VertexInputAttributeDescriptions : List VkVertexInputAttributeDescription
  m_DescriptorLayoutInfo : List DescriptorLayoutInfo
  m_PushConstants : List PushConstant
  deriving DecidableEq, Repr

/-! ## Sizes of the maths types -/

/-- Modelled from the spec: `sizeof(int)`; the declaration of the platform's
`int` is not in the sources, an element is a 32-bit numeric kind. -/
def sizeof_int : Nat := 4

/-- Modelled from the spec: `sizeof(float)`, a 32-bit numeric kind. -/
def sizeof_float : Nat := 4

/-- Modelled from the spec: `sizeof(Maths::Vector2)`; the declaration of
`Maths::Vector2` is not in the sources, a format is component count times
numeric kind, here two 32-bit floats. -/
def sizeof_Vector2 : Nat := 8

/-- Modelled from the spec: `sizeof(Maths::Vector3)`; the declaration is not
in the sources, three 32-bit floats. -/
def sizeof_Vector3 : Nat := 12

/-- Modelled from the spec: `sizeof(Maths::Vector4)`; the declaration is not
in the sources, four 32-bit floats (two float4 inputs make a 32-byte vertex). -/
def sizeof_Vector4 : Nat := 16

/-- Modelled from the spec: `sizeof(Maths::IntVector2)`; the declaration is
not in the sources, two 32-bit integers. -/
def sizeof_IntVector2 : Nat := 8

/-- Modelled from the spec: `sizeof(Maths::IntVector3)`; the declaration is
not in the sources, three 32-bit integers. -/
def sizeof_IntVector3 : Nat := 12

/-- Modelled from the spec: `sizeof(Maths::IntVector4)`; the declaration is
not in the sources, four 32-bit integers. -/
def sizeof_IntVector4 : Nat := 16

/-! ## `GetVulkanFormat` and `GetStrideFromVulkanFormat` -/

/-- The local table `uint_types` of `GetVulkanFormat`. -/
def uint_types : List VkFormat :=
  [.VK_FORMAT_R32_UINT, .VK_FORMAT_R32G32_UINT, .VK_FORMAT_R32G32B32_UINT,
   .VK_FORMAT_R32G32B32A32_UINT]

/-- The local table `int_types` of `GetVulkanFormat`. -/
def int_types : List VkFormat :=
  [.VK_FORMAT_R32_SINT, .VK_FORMAT_R32G32_SINT, .VK_FORMAT_R32G32B32_SINT,
   .VK_FORMAT_R32G32B32A32_SINT]

/-- The local table `float_types` of `GetVulkanFormat`. -/
def float_types : List VkFormat :=
  [.VK_FORMAT_R32_SFLOAT, .VK_FORMAT_R32G32_SFLOAT, .VK_FORMAT_R32G32B32_SFLOAT,
   .VK_FORMAT_R32G32B32A32_SFLOAT]

/-- The local table `double_types` of `GetVulkanFormat`. -/
def double_types : List VkFormat :=
  [.VK_FORMAT_R64_SFLOAT, .VK_FORMAT_R64G64_SFLOAT, .VK_FORMAT_R64G64B64_SFLOAT,
   .VK_FORMAT_R64G64B64A64_SFLOAT]

/-- The index expression `type.vecsize - 1`, computed on `uint32_t`. -/
def vecIndex (type : SPIRType) : Nat :=
  (type.vecsize % UINT32_MOD + UINT32_MOD - 1) % UINT32_MOD

/-- `GetVulkanFormat`: the four supported base kinds index their table with
`vecsize - 1` (`none` when that index is outside the four-element table); every
other base kind logs an error and yields `VK_FORMAT_R32G32B32A32_SFLOAT`. -/
def GetVulkanFormat (type : SPIRType) : Option VkFormat :=
  match type.basetype with
  | .UInt => uint_types.get? (vecIndex type)
  | .Int => int_types.get? (vecIndex type)
  | .Float => float_types.get? (vecIndex type)
  | .Double => double_types.get? (vecIndex type)
  | _ => some .VK_FORMAT_R32G32B32A32_SFLOAT

/-- `GetStrideFromVulkanFormat`: the eleven cases of the `switch`; the
`default` branch logs an error and returns 0. -/
def GetStrideFromVulkanFormat (format : VkFormat) : Nat :=
  match format with
  | .VK_FORMAT_R8_SINT => sizeof_int
  | .VK_FORMAT_R32_SFLOAT => sizeof_float
  | .VK_FORMAT_R32G32_SFLOAT => sizeof_Vector2
  | .VK_FORMAT_R32G32B32_SFLOAT => sizeof_Vector3
  | .VK_FORMAT_R32G32B32A32_SFLOAT => sizeof_Vector4
  | .VK_FORMAT_R32G32_SINT => sizeof_IntVector2
  | .VK_FORMAT_R32G32B32_SINT => sizeof_IntVector3
  | .VK_FORMAT_R32G32B32A32_SINT => sizeof_IntVector4
  | .VK_FORMAT_R32G32_UINT => sizeof_IntVector2
  | .VK_FORMAT_R32G32B32_UINT => sizeof_IntVector3
  | .VK_FORMAT_R32G32B32A32_UINT => sizeof_IntVector4
  | _ => 0

/-! ## `VKShader::Init` -/

/-- The loop over `resources.stage_inputs` (vertex stage only): each input
gets the running stride as its offset, then the stride grows by the stride of
the input's format.  The arguments are the current `m_VertexInputStride` and
`m_VertexInputAttributeDescriptions`. -/
def reflectStageInputs :
    List Resource → Nat → List VkVertexInputAttributeDescription →
      Option (Nat × List VkVertexInputAttributeDescription)
  | [], stride, descs => some (stride, descs)
  | resource :: rest, stride, descs =>
    match GetVulkanFormat resource.type with
    | none => none
    | some format =>
      reflectStageInputs rest
        ((stride + GetStrideFromVulkanFormat format) % UINT32_MOD)
        (descs ++ [{ binding := resource.decorationBinding
                     location := resource.decorationLocation
                     offset := stride
                     format := format }])

/-- The expression `type.array.size() ? uint32_t(type.array[0]) : 1`.  The
elements of `SPIRType::array` are `uint32_t` already, so the cast is the
identity. -/
def arrayCount (type : SPIRType) : Nat :=
  match type.array with
  | [] => 1
  | n :: _ => n

/-- The entry pushed for one resource of kind `kind` found in stage `stage`. -/
def layoutInfoOf (kind : DescriptorType) (stage : ShaderType) (u : Resource) :
    DescriptorLayoutInfo :=
  { type := kind
    stage := stage
    binding := u.decorationBinding
    set := u.decorationDescriptorSet
    count := arrayCount u.type }

/-- The loop over `resources.uniform_buffers`. -/
def reflectUniformBuffers (stage : ShaderType) :
    List Resource → List DescriptorLayoutInfo → List DescriptorLayoutInfo
  | [], infos => infos
  | u :: rest, infos =>
    reflectUniformBuffers stage rest
      (infos ++ [layoutInfoOf .UNIFORM_BUFFER stage u])

/-- The loop over `resources.sampled_images`. -/
def reflectSampledImages (stage : ShaderType) :
    List Resource → List DescriptorLayoutInfo → List DescriptorLayoutInfo
  | [], infos => infos
  | u :: rest, infos =>
    reflectSampledImages stage rest
      (infos ++ [layoutInfoOf .IMAGE_SAMPLER stage u])

/-- The inner loop `for(auto& range : ranges) size += uint32_t(range.range);`. -/
def activeRangeSize : List BufferRange → Nat → Nat
  | [], size => size
  | range :: rest, size =>
    activeRangeSize rest ((size + range.range % UINT32_MOD) % UINT32_MOD)

/-- The loop over `resources.push_constant_buffers`: the block is pushed with
its size and stage, then its `data` is set to a fresh buffer of `size` bytes. -/
def reflectPushConstants (stage : ShaderType) :
    List Resource → List PushConstant → List PushConstant
  | [], pcs => pcs
  | u :: rest, pcs =>
    let size := activeRangeSize u.activeBufferRanges 0
    reflectPushConstants stage rest
      (pcs ++ [{ size := size, shaderStage := stage, data := some size }])

/-- The body of the loop `for(auto& file : files)` of `Init`, for the stage
`stage` whose bytecode reflects to `resources`. -/
def reflectStage (s : VKShader) (stage : ShaderType) (resources : ShaderResources) :
    Option VKShader :=
  let vertex : Option (Nat × List VkVertexInputAttributeDescription) :=
    if stage = .VERTEX then
      reflectStageInputs resources.stage_inputs 0 s.m_VertexInputAttributeDescriptions
    else
      some (s.m_VertexInputStride, s.m_VertexInputAttributeDescriptions)
  match vertex with
  | none => none
  | some (stride, descs) =>
    let infos1 := reflectUniformBuffers stage resources.uniform_buffers s.m_DescriptorLayoutInfo
    let pcs := reflectPushConstants stage resources.push_constant_buffers s.m_PushConstants
    let infos2 := reflectSampledImages stage resources.sampled_images infos1
    some { s with
      m_VertexInputStride := stride
      m_VertexInputAttributeDescriptions := descs
      m_DescriptorLayoutInfo := infos2
      m_PushConstants := pcs }

/-- The loop `for(auto& file : files)` of `Init` over the stages in map order. -/
def reflectStages : List (ShaderType × ShaderResources) → VKShader → Option VKShader
  | [], s => some s
  | (stage, resources) :: rest, s =>
    match reflectStage s stage resources with
    | none => none
    | some s1 => reflectStages rest s1

/-- `VKShader::Init`, from the stage map produced by `PreProcess` and the
resources SPIRV-Cross reflects for each stage, in the iteration order of the
map.  The result is the returned `bool` and the shader. -/
def Init (s : VKShader) (files : List (ShaderType × ShaderResources)) :
    Option (Bool × VKShader) :=
  let s1 : VKShader :=
    { s with
      m_StageCount := files.length % UINT32_MOD
      m_ShaderTypes := s.m_ShaderTypes ++ files.map Prod.fst }
  match reflectStages files s1 with
  | none => none
  | some s2 => some (true, s2)

/-- The shader as its constructor leaves it before calling `Init`. -/
def VKShader.empty : VKShader :=
  { m_StageCount := 0
    m_ShaderTypes := []
    m_VertexInputStride := 0
    m_VertexInputAttributeDescriptions := []
    m_DescriptorLayoutInfo := []
    m_PushConstants := [] }

/-! ## `VKCommandBuffer` -/

/-- The enumeration `CommandBufferState` of `VKCommandBuffer.h`. -/
inductive CommandBufferState where
  | Idle
  | Recording
  | Ended
  | Submitted
  deriving DecidableEq, Repr

/-- The data members of `VKCommandBuffer` (`VKCommandBuffer.h`). -/
structure VKCommandBuffer where
  m_CommandBuffer : Nat
  m_Primary : Bool
  m_State : CommandBufferState
  deriving DecidableEq, Repr

/-- Modelled from the spec: `VKCommandBuffer::BeginRecording`, whose body
(`VKCommandBuffer.cpp`) is not in the sources.  Section 4.1: begin recording
moves `Idle` to `Recording` and fails if the current state is not `Idle`.  The
result is whether the call succeeded and the buffer afterwards. -/
def VKCommandBuffer.BeginRecording (c : VKCommandBuffer) : Bool × VKCommandBuffer :=
  if c.m_State = .Idle then (true, { c with m_State := .Recording }) else (false, c)

/-- Modelled from the spec: `VKCommandBuffer::EndRecording`, whose body is not
in the sources.  Section 4.1: end recording moves `Recording` to `Ended` and
fails if the buffer is not currently `Recording`. -/
def VKCommandBuffer.EndRecording (c : VKCommandBuffer) : Bool × VKCommandBuffer :=
  if c.m_State = .Recording then (true, { c with m_State := .Ended }) else (false, c)

/-- Modelled from the spec: `VKCommandBuffer::Execute`, whose body is not in
the sources.  Section 4.1: submitting moves `Ended` to `Submitted`, with or
without waiting for the fence; any out-of-order call fails. -/
def VKCommandBuffer.Execute (c : VKCommandBuffer) (waitFence : Bool) :
    Bool × VKCommandBuffer :=
  if c.m_State = .Ended then
    match waitFence with
    | true => (true, { c with m_State := .Submitted })
    | false => (true, { c with m_State := .Submitted })
  else (false, c)

/-- Modelled from the spec: the recycling of a buffer by the frame-resource
pool, which is not in the sources.  Section 4.1: `Submitted` goes back to
`Idle` once the pool recycles the buffer for a new frame. -/
def VKCommandBuffer.Recycle (c : VKCommandBuffer) : Bool × VKCommandBuffer :=
  if c.m_State = .Submitted then (true, { c with m_State := .Idle }) else (false, c)

/-- The calls a client can make on a command buffer. -/
inductive CommandBufferCall where
  | BeginRecording
  | EndRecording
  | Execute (waitFence : Bool)
  | Recycle
  deriving DecidableEq, Repr

/-- Dispatch of one call on a command buffer. -/
def VKCommandBuffer.call (c : VKCommandBuffer) : CommandBufferCall → Bool × VKCommandBuffer
  | .BeginRecording => c.BeginRecording
  | .EndRecording => c.EndRecording
  | .Execute waitFence => c.Execute waitFence
  | .Recycle => c.Recycle

/-- The one-step successor relation of the cycle
`Idle → Recording → Ended → Submitted → Idle`. -/
def CommandBufferState.next : CommandBufferState → CommandBufferState
  | .Idle => .Recording
  | .Recording => .Ended
  | .Ended => .Submitted
  | .Submitted => .Idle

/-! ## `VKRenderer` -/

/-- `VK_SUCCESS`. -/
def VK_SUCCESS : Int := 0

/-- `VK_SUBOPTIMAL_KHR`. -/
def VK_SUBOPTIMAL_KHR : Int := 1000001003

/-- `VK_ERROR_OUT_OF_DATE_KHR`. -/
def VK_ERROR_OUT_OF_DATE_KHR : Int := -1000001004

/-- `VkExtent2D`. -/
structure VkExtent2D where
  width : Nat
  height : Nat
  deriving DecidableEq, Repr

/-- The fields of `VkSurfaceCapabilitiesKHR` read by `OnResize`. -/
structure VkSurfaceCapabilitiesKHR where
  minImageExtent : VkExtent2D
  maxImageExtent : VkExtent2D
  deriving DecidableEq, Repr

/-- A `VKDescriptorSet` as seen by the binder: `GetIsDynamic()` and
`GetDescriptorSet()`. -/
structure VKDescriptorSet where
  m_Dynamic : Bool
  m_DescriptorSet : Nat
  deriving DecidableEq, Repr

/-- The arguments of one `vkCmdBindDescriptorSets` command.  `pDescriptorSets`
is the storage the pointer designates (the whole `m_DescriptorSetPool`), of
which the command reads the first `descriptorSetCount` handles;
`pDynamicOffsets` is the storage behind `&dynamicOffset`, a single value. -/
structure BindCommand where
  firstSet : Nat
  descriptorSetCount : Nat
  pDescriptorSets : List Nat
  dynamicOffsetCount : Nat
  pDynamicOffsets : List Nat
  deriving DecidableEq, Repr

/-- The calls `VKRenderer` makes into its collaborators. -/
inductive Call where
  | LUMOS_LOG_INFO
  | LUMOS_LOG_CRITICAL
  | vkGetPhysicalDeviceSurfaceCapabilitiesKHR
  | ContextOnResize (width height : Nat)
  | SwapchainAcquireNextImage
  | BeginRecording
  | vkCmdBindDescriptorSets (cmd : BindCommand)
  deriving DecidableEq, Repr

/-- The members of `VKRenderer` used by the functions below. -/
structure VKRenderer where
  m_Width : Nat
  m_Height : Nat
  m_DescriptorSetPool : List Nat
  deriving DecidableEq, Repr

/-- `VKRenderer::OnResize`.  `capabilities` is what
`vkGetPhysicalDeviceSurfaceCapabilitiesKHR` reports for the surface.  The
result is the renderer afterwards and the calls made. -/
def VKRenderer.OnResize (r : VKRenderer) (capabilities : VkSurfaceCapabilitiesKHR)
    (width height : Nat) : VKRenderer × List Call :=
  if width = 0 ∨ height = 0 then (r, [])
  else
    let r1 := { r with m_Width := width, m_Height := height }
    let r2 := { r1 with
      m_Width := max capabilities.minImageExtent.width
        (min capabilities.maxImageExtent.width r1.m_Width) }
    let r3 := { r2 with
      m_Height := max capabilities.minImageExtent.height
        (min capabilities.maxImageExtent.height r2.m_Height) }
    (r3, [.LUMOS_LOG_INFO, .vkGetPhysicalDeviceSurfaceCapabilitiesKHR,
          .ContextOnResize r3.m_Width r3.m_Height])

/-- `VKRenderer::AcquireNextImage`.  `result` is what
`swapchain->AcquireNextImage(nullptr)` returns. -/
def VKRenderer.AcquireNextImage (r : VKRenderer) (capabilities : VkSurfaceCapabilitiesKHR)
    (result : Int) : VKRenderer × List Call :=
  if result = VK_ERROR_OUT_OF_DATE_KHR ∨ result = VK_SUBOPTIMAL_KHR then
    if result = VK_ERROR_OUT_OF_DATE_KHR then
      let (r1, calls) := r.OnResize capabilities r.m_Width r.m_Height
      (r1, [.SwapchainAcquireNextImage, .LUMOS_LOG_INFO] ++ calls)
    else
      (r, [.SwapchainAcquireNextImage, .LUMOS_LOG_INFO])
  else if result ≠ VK_SUCCESS then
    (r, [.SwapchainAcquireNextImage, .LUMOS_LOG_CRITICAL])
  else
    (r, [.SwapchainAcquireNextImage])

/-- `VKRenderer::Begin`: `AcquireNextImage()` followed by `BeginRecording()`
on the current command buffer of the swapchain. -/
def VKRenderer.Begin (r : VKRenderer) (capabilities : VkSurfaceCapabilitiesKHR)
    (result : Int) : VKRenderer × List Call :=
  let (r1, calls) := r.AcquireNextImage capabilities result
  (r1, calls ++ [.BeginRecording])

/-- The loop of `BindDescriptorSetsInternal` over the supplied sets (`none` is
a null pointer).  The arguments are `numDynamicDescriptorSets`,
`numDesciptorSets` and `m_DescriptorSetPool`; a write past the end of the pool
gives `none`. -/
def bindDescriptorSetsLoop :
    List (Option VKDescriptorSet) → Nat → Nat → List Nat → Option (Nat × Nat × List Nat)
  | [], numDynamicDescriptorSets, numDesciptorSets, pool =>
    some (numDynamicDescriptorSets, numDesciptorSets, pool)
  | none :: rest, numDynamicDescriptorSets, numDesciptorSets, pool =>
    bindDescriptorSetsLoop rest numDynamicDescriptorSets numDesciptorSets pool
  | some vkDesSet :: rest, numDynamicDescriptorSets, numDesciptorSets, pool =>
    let numDynamic1 :=
      if vkDesSet.m_Dynamic then (numDynamicDescriptorSets + 1) % UINT32_MOD
      else numDynamicDescriptorSets
    if numDesciptorSets < pool.length then
      bindDescriptorSetsLoop rest numDynamic1 ((numDesciptorSets + 1) % UINT32_MOD)
        (pool.set numDesciptorSets vkDesSet.m_DescriptorSet)
    else none

/-- `VKRenderer::BindDescriptorSetsInternal`: the loop, then one
`vkCmdBindDescriptorSets` with first set 0. -/
def VKRenderer.BindDescriptorSetsInternal (r : VKRenderer) (dynamicOffset : Nat)
    (descriptorSets : List (Option VKDescriptorSet)) : Option (VKRenderer × List Call) :=
  match bindDescriptorSetsLoop descriptorSets 0 0 r.m_DescriptorSetPool with
  | none => none
  | some (numDynamicDescriptorSets, numDesciptorSets, pool) =>
    some ({ r with m_DescriptorSetPool := pool },
      [.vkCmdBindDescriptorSets
        { firstSet := 0
          descriptorSetCount := numDesciptorSets
          pDescriptorSets := pool
          dynamicOffsetCount := numDynamicDescriptorSets
          pDynamicOffsets := [dynamicOffset] }])

/-! ## Reference behaviour and auxiliary functions used in the statements -/

/-- The stride each vertex input contributes: the table stride of the format
derived from its type (0 where no format can be derived). -/
def inputStrides (inputs : List Resource) : List Nat :=
  inputs.map fun resource =>
    match GetVulkanFormat resource.type with
    | some format => GetStrideFromVulkanFormat format
    | none => 0

/-- The component count indexes the four-element format tables. -/
def ValidVecsize (resource : Resource) : Prop :=
  1 ≤ resource.type.vecsize ∧ resource.type.vecsize ≤ 4

instance (resource : Resource) : Decidable (ValidVecsize resource) := by
  unfold ValidVecsize; infer_instance

/-- The sum of the byte ranges of the active members of a push-constant block. -/
def activeRangeSum (ranges : List BufferRange) : Nat :=
  (ranges.map BufferRange.range).sum

/-- The descriptor entries one stage contributes: one per uniform buffer, then
one per sampled image. -/
def stageLayoutInfos (file : ShaderType × ShaderResources) : List DescriptorLayoutInfo :=
  file.2.uniform_buffers.map (layoutInfoOf .UNIFORM_BUFFER file.1) ++
    file.2.sampled_images.map (layoutInfoOf .IMAGE_SAMPLER file.1)

/-- The handles of the non-null sets, in supplied order. -/
def nonNullHandles (descriptorSets : List (Option VKDescriptorSet)) : List Nat :=
  descriptorSets.filterMap fun d => d.map VKDescriptorSet.m_DescriptorSet

/-- The number of non-null sets that are dynamic. -/
def dynamicCount (descriptorSets : List (Option VKDescriptorSet)) : Nat :=
  descriptorSets.countP fun d =>
    match d with
    | some vkDesSet => vkDesSet.m_Dynamic
    | none => false

/-- The reference behaviour of a resize in the words of the specification: a
zero width or height is a no-op; otherwise the request is clamped to the
reported minimum and maximum image extent, stored and forwarded downstream. -/
def OnResize_reference (r : VKRenderer) (capabilities : VkSurfaceCapabilitiesKHR)
    (w h : Nat) : VKRenderer × List Call :=
  if w = 0 ∨ h = 0 then (r, [])
  else
    let cw := max capabilities.minImageExtent.width (min capabilities.maxImageExtent.width w)
    let ch := max capabilities.minImageExtent.height (min capabilities.maxImageExtent.height h)
    ({ r with m_Width := cw, m_Height := ch },
      [.LUMOS_LOG_INFO, .vkGetPhysicalDeviceSurfaceCapabilitiesKHR, .ContextOnResize cw ch])

/-- The attributes the stage-input loop appends when it starts with running
stride `stride`: a closed form of `reflectStageInputs` used in the proofs. -/
def vertexAttributes : List Resource → Nat → List VkVertexInputAttributeDescription
  | [], _ => []
  | resource :: rest, stride =>
    match GetVulkanFormat resource.type with
    | none => []
    | some format =>
      { binding := resource.decorationBinding
        location := resource.decorationLocation
        offset := stride
        format := format } ::
        vertexAttributes rest ((stride + GetStrideFromVulkanFormat format) % UINT32_MOD)

/-- A float4 vertex input at binding 0 and the given location. -/
def float4Input (location : Nat) : Resource :=
  { decorationBinding := 0
    decorationLocation := location
    decorationDescriptorSet := 0
    decorationOffset := 0
    type := { basetype := .Float, vecsize := 4, array := [] }
    activeBufferRanges := [] }

/-- The resources of a vertex stage declaring two float4 inputs. -/
def twoFloat4Vertex : ShaderResources :=
  { stage_inputs := [float4Input 0, float4Input 1]
    uniform_buffers := []
    push_constant_buffers := []
    sampled_images := [] }

/-- The push-constant block the loop builds for one declared block. -/
def pushConstantOf (stage : ShaderType) (u : Resource) : PushConstant :=
  { size := activeRangeSize u.activeBufferRanges 0
    shaderStage := stage
    data := some (activeRangeSize u.activeBufferRanges 0) }

/-- The push-constant blocks one stage contributes. -/
def stagePushConstants (file : ShaderType × ShaderResources) : List PushConstant :=
  file.2.push_constant_buffers.map (pushConstantOf file.1)

/-- The vertex attributes one stage contributes (none unless it is the vertex
stage). -/
def stageVertexAttributes (file : ShaderType × ShaderResources) :
    List VkVertexInputAttributeDescription :=
  if file.1 = .VERTEX then vertexAttributes file.2.stage_inputs 0 else []

/-- Every input of every vertex stage indexes the format tables. -/
def ValidStages (files : List (ShaderType × ShaderResources)) : Prop :=
  ∀ file ∈ files, file.1 = .VERTEX → ∀ r ∈ file.2.stage_inputs, ValidVecsize r

instance (files : List (ShaderType × ShaderResources)) : Decidable (ValidStages files) := by
  unfold ValidStages; infer_instance

/-- The base kinds `GetVulkanFormat` has a table for. -/
def SupportedBaseKind (basetype : BaseType) : Prop :=
  basetype = .UInt ∨ basetype = .Int ∨ basetype = .Float ∨ basetype = .Double

instance (basetype : BaseType) : Decidable (SupportedBaseKind basetype) := by
  unfold SupportedBaseKind; infer_instance

/-- Whether `format` is one of the `case` labels of `GetStrideFromVulkanFormat`. -/
def hasStrideEntry (format : VkFormat) : Bool :=
  match format with
  | .VK_FORMAT_R8_SINT => true
  | .VK_FORMAT_R32_SFLOAT => true
  | .VK_FORMAT_R32G32_SFLOAT => true
  | .VK_FORMAT_R32G32B32_SFLOAT => true
  | .VK_FORMAT_R32G32B32A32_SFLOAT => true
  | .VK_FORMAT_R32G32_SINT => true
  | .VK_FORMAT_R32G32B32_SINT => true
  | .VK_FORMAT_R32G32B32A32_SINT => true
  | .VK_FORMAT_R32G32_UINT => true
  | .VK_FORMAT_R32G32B32_UINT => true
  | .VK_FORMAT_R32G32B32A32_UINT => true
  | _ => false

/-- The inputs of all vertex stages of a program, in order. -/
def vertexInputs (files : List (ShaderType × ShaderResources)) : List Resource :=
  files.flatMap fun file => if file.1 = .VERTEX then file.2.stage_inputs else []

/-- A vertex input at binding 0 with the given location, base kind and
component count. -/
def vertexInput (location : Nat) (basetype : BaseType) (vecsize : Nat) : Resource :=
  { decorationBinding := 0
    decorationLocation := location
    decorationDescriptorSet := 0
    decorationOffset := 0
    type := { basetype := basetype, vecsize := vecsize, array := [] }
    activeBufferRanges := [] }

/-- The resources of a stage that declares only the given stage inputs. -/
def inputsOnly (inputs : List Resource) : ShaderResources :=
  { stage_inputs := inputs
    uniform_buffers := []
    push_constant_buffers := []
    sampled_images := [] }

/-- The inputs whose derived format has an entry in the stride table: float
with 1 to 4 components, signed or unsigned int with 2 to 4 components. -/
def HasStrideKind (resource : Resource) : Prop :=
  (resource.type.basetype = .Float ∧ 1 ≤ resource.type.vecsize ∧
    resource.type.vecsize ≤ 4) ∨
  ((resource.type.basetype = .Int ∨ resource.type.basetype = .UInt) ∧
    2 ≤ resource.type.vecsize ∧ resource.type.vecsize ≤ 4)

instance (resource : Resource) : Decidable (HasStrideKind resource) := by
  unfold HasStrideKind; infer_instance

/-- The block the specification expects for a declared push-constant block
of stage `stage`: sized by the sum of its active ranges, with a buffer of that
size. -/
def activePushConstant (stage : ShaderType) (u : Resource) : PushConstant :=
  { size := activeRangeSum u.activeBufferRanges
    shaderStage := stage
    data := some (activeRangeSum u.activeBufferRanges) }

/-- The entry the specification expects for a resource of kind `kind` of stage
`stage`: its set and binding annotations and its first array dimension, or 1. -/
def bindingInfo (kind : DescriptorType) (stage : ShaderType) (u : Resource) :
    DescriptorLayoutInfo :=
  { type := kind
    stage := stage
    binding := u.decorationBinding
    set := u.decorationDescriptorSet
    count := u.type.array.head?.getD 1 }

/-- A push-constant block whose active members have the given byte ranges. -/
def pushConstantBlock (ranges : List Nat) : Resource :=
  { decorationBinding := 0
    decorationLocation := 0
    decorationDescriptorSet := 0
    decorationOffset := 0
    type := { basetype := .Struct, vecsize := 1, array := [] }
    activeBufferRanges := ranges.map fun n => { index := 0, offset := 0, range := n } }

/-- The resources of a stage that declares only the given push-constant blocks. -/
def pushConstantsOnly (blocks : List Resource) : ShaderResources :=
  { stage_inputs := []
    uniform_buffers := []
    push_constant_buffers := blocks
    sampled_images := [] }

/-- A sampled image at the given set and binding, not an array. -/
def sampledImage (set binding : Nat) : Resource :=
  { decorationBinding := binding
    decorationLocation := 0
    decorationDescriptorSet := set
    decorationOffset := 0
    type := { basetype := .SampledImage, vecsize := 1, array := [] }
    activeBufferRanges := [] }

/-- The resources of a fragment stage declaring one sampled image at set 0,
binding 0. -/
def oneImageFragment : ShaderResources :=
  { stage_inputs := []
    uniform_buffers := []
    push_constant_buffers := []
    sampled_images := [sampledImage 0 0] }

/-- A renderer of 800 by 600 whose set table holds four handles. -/
def sampleRenderer : VKRenderer :=
  { m_Width := 800, m_Height := 600, m_DescriptorSetPool := [0, 0, 0, 0] }

/-- Surface capabilities allowing extents from 1 by 1 to 4096 by 4096. -/
def sampleCapabilities : VkSurfaceCapabilitiesKHR :=
  { minImageExtent := { width := 1, height := 1 }
    maxImageExtent := { width := 4096, height := 4096 } }

/-- `VK_ERROR_DEVICE_LOST`, one of the other non-success result codes. -/
def VK_ERROR_DEVICE_LOST : Int := -4

/-- Three non-null sets with handles 11, 12, 13, of which the second is
dynamic, with a null entry between the first two. -/
def threeSetsOneDynamic : List (Option VKDescriptorSet) :=
  [some { m_Dynamic := false, m_DescriptorSet := 11 }, none,
   some { m_Dynamic := true, m_DescriptorSet := 12 },
   some { m_Dynamic := false, m_DescriptorSet := 13 }]

/-- Two non-null sets, neither of them dynamic. -/
def twoStaticSets : List (Option VKDescriptorSet) :=
  [some { m_Dynamic := false, m_DescriptorSet := 7 },
   some { m_Dynamic := false, m_DescriptorSet := 8 }]

/-- Two non-null sets, both dynamic. -/
def twoDynamicSets : List (Option VKDescriptorSet) :=
  [some { m_Dynamic := true, m_DescriptorSet := 7 },
   some { m_Dynamic := true, m_DescriptorSet := 8 }]

/-! ## `VKShader::PreProcess` and `VKShader::ReadShaderFile` -/

/-- The tab character. -/
def TAB : Char := Char.ofNat 9

/-- The newline character. -/
def NEWLINE : Char := Char.ofNat 10

/-- Modelled from the spec: `StringUtilities::StringReplace(str, ch)`, whose
body (`Core/StringUtilities`) is not in the sources.  It removes every
occurrence of `ch` from `str` (the tabs are stripped). -/
def StringUtilities.StringReplace (str : List Char) (ch : Char) : List Char :=
  str.filter fun c => c != ch

/-- Modelled from the spec: `StringUtilities::StartsWith(str, start)`, whose
body is not in the sources: whether `str` begins with `start`. -/
def StringUtilities.StartsWith (str start : List Char) : Bool :=
  start.isPrefixOf str

/-- Modelled from the spec: `StringUtilities::StringContains(str, sub)`, whose
body is not in the sources: whether `sub` occurs somewhere in `str`. -/
def StringUtilities.StringContains : List Char → List Char → Bool
  | [], sub => sub.isEmpty
  | c :: cs, sub => sub.isPrefixOf (c :: cs) || StringUtilities.StringContains cs sub

/-- Modelled from the spec: `StringUtilities::GetLines(source)`, whose body is
not in the sources: the lines of the text, split at the newline characters. -/
def StringUtilities.GetLines : List Char → List (List Char)
  | [] => []
  | c :: cs =>
    if c = NEWLINE then [] :: StringUtilities.GetLines cs
    else
      match StringUtilities.GetLines cs with
      | [] => [[c]]
      | line :: lines => (c :: line) :: lines

/-- A `std::map<ShaderType, std::string>` as a finite partial function: `none`
where the key is absent. -/
abbrev StageMap : Type := ShaderType → Option (List Char)

/-- The empty map, as `Init` declares `files`. -/
def StageMap.empty : StageMap := fun _ => none

/-- `shaders->insert(it, std::pair<ShaderType, std::string>(type, ""))`: the
pair is added only if the key is absent; an existing entry is kept. -/
def StageMap.insert (shaders : StageMap) (type : ShaderType) : StageMap :=
  fun key => if key = type then
    (match shaders type with
     | some body => some body
     | none => some [])
  else shaders key

/-- `shaders->at(type).append(line)`: `none` when the key is absent (`at`
throws `std::out_of_range`). -/
def StageMap.appendAt (shaders : StageMap) (type : ShaderType) (line : List Char) :
    Option StageMap :=
  match shaders type with
  | none => none
  | some body => some fun key => if key = type then some (body ++ line) else shaders key

/-- `VKShader::ReadShaderFile`.  `type` is the module-level `static ShaderType
type`; the result is its value after the loop and the map, or `none` when a
lookup `shaders->at(type)` fails. -/
def ReadShaderFile :
    List (List Char) → ShaderType → StageMap → Option (ShaderType × StageMap)
  | [], type, shaders => some (type, shaders)
  | line :: rest, type, shaders =>
    let str := StringUtilities.StringReplace line TAB
    if StringUtilities.StartsWith str "#shader".toList then
      if StringUtilities.StringContains str "vertex".toList then
        ReadShaderFile rest .VERTEX (shaders.insert .VERTEX)
      else if StringUtilities.StringContains str "geometry".toList then
        ReadShaderFile rest .GEOMETRY (shaders.insert .GEOMETRY)
      else if StringUtilities.StringContains str "fragment".toList then
        ReadShaderFile rest .FRAGMENT (shaders.insert .FRAGMENT)
      else if StringUtilities.StringContains str "tess_cont".toList then
        ReadShaderFile rest .TESSELLATION_CONTROL (shaders.insert .TESSELLATION_CONTROL)
      else if StringUtilities.StringContains str "tess_eval".toList then
        ReadShaderFile rest .TESSELLATION_EVALUATION
          (shaders.insert .TESSELLATION_EVALUATION)
      else if StringUtilities.StringContains str "compute".toList then
        ReadShaderFile rest .COMPUTE (shaders.insert .COMPUTE)
      else if StringUtilities.StringContains str "end".toList then
        ReadShaderFile rest .UNKNOWN shaders
      else
        ReadShaderFile rest type shaders
    else if type ≠ .UNKNOWN then
      match shaders.appendAt type line with
      | none => none
      | some shaders1 => ReadShaderFile rest type shaders1
    else
      ReadShaderFile rest type shaders

/-- `VKShader::PreProcess`: the module-level `type` is reset to `UNKNOWN`, the
source is split into lines and handed to `ReadShaderFile`. -/
def PreProcess (source : List Char) (sources : StageMap) : Option (ShaderType × StageMap) :=
  ReadShaderFile (StringUtilities.GetLines source) .UNKNOWN sources

/-! ## Reference description of the stage bodies -/

/-- A marker line: its text without tabs starts with `#shader`. -/
def isMarkerLine (line : List Char) : Bool :=
  StringUtilities.StartsWith (StringUtilities.StringReplace line TAB) "#shader".toList

/-- What a marker line names: a stage for the six stage keywords (tested in the
order vertex, geometry, fragment, tess_cont, tess_eval, compute), `UNKNOWN`
for `end`, nothing for any other text. -/
def markerKind (line : List Char) : Option ShaderType :=
  let str := StringUtilities.StringReplace line TAB
  if StringUtilities.StringContains str "vertex".toList then some .VERTEX
  else if StringUtilities.StringContains str "geometry".toList then some .GEOMETRY
  else if StringUtilities.StringContains str "fragment".toList then some .FRAGMENT
  else if StringUtilities.StringContains str "tess_cont".toList then
    some .TESSELLATION_CONTROL
  else if StringUtilities.StringContains str "tess_eval".toList then
    some .TESSELLATION_EVALUATION
  else if StringUtilities.StringContains str "compute".toList then some .COMPUTE
  else if StringUtilities.StringContains str "end".toList then some .UNKNOWN
  else none

/-- The non-marker lines of a text, each paired with the stage whose region it
lies in (`UNKNOWN` outside every region), in order.  `type` is the stage in
force at the first line. -/
def regionLines : List (List Char) → ShaderType → List (ShaderType × List Char)
  | [], _ => []
  | line :: rest, type =>
    if isMarkerLine line then regionLines rest ((markerKind line).getD type)
    else (type, line) :: regionLines rest type

/-- The concatenation, in order, of the non-marker lines of the regions of
`stage`, each line as it stands in the text. -/
def regionBody (stage : ShaderType) (lines : List (List Char)) (type : ShaderType) :
    List Char :=
  (((regionLines lines type).filter fun p => p.1 = stage).map Prod.snd).flatten

/-- Whether some marker line of the text names `stage`. -/
def stageMarked (stage : ShaderType) (lines : List (List Char)) : Bool :=
  lines.any fun line => isMarkerLine line && markerKind line == some stage

/-- A source text with one vertex region whose only line begins with a tab. -/
def tabbedVertexSource : List Char :=
  "#shader vertex".toList ++ [NEWLINE, TAB] ++ "main.vert.spv".toList ++ [NEWLINE] ++
    "#shader end".toList

/-- A source text with a line before the first marker, an unrecognised marker,
two vertex regions, a fragment region and no final `#shader end`. -/
def unevenSource : List Char :=
  "stray".toList ++ [NEWLINE] ++ "#shader vertex".toList ++ [NEWLINE] ++ "a".toList ++
    [NEWLINE] ++ "#shader other".toList ++ [NEWLINE] ++ "b".toList ++ [NEWLINE] ++
    "#shader fragment".toList ++ [NEWLINE] ++ "c".toList ++ [NEWLINE] ++
    "#shader vertex".toList ++ [NEWLINE] ++ "d".toList

/-! ## Properties of the stage-input loop -/

/-- A component count between 1 and 4 always derives a format. -/
theorem GetVulkanFormat_of_valid (resource : Resource) (h : ValidVecsize resource) :
    ∃ format, GetVulkanFormat resource.type = some format := by
  obtain ⟨h1, h4⟩ := h
  have hv : resource.type.vecsize = 1 ∨ resource.type.vecsize = 2 ∨
      resource.type.vecsize = 3 ∨ resource.type.vecsize = 4 := by omega
  unfold GetVulkanFormat
  rcases hv with hv | hv | hv | hv <;>
    cases hb : resource.type.basetype <;>
    simp [vecIndex, hv, UINT32_MOD, uint_types, int_types, float_types, double_types]

/-- Closed form of the stage-input loop when every input derives a format. -/
theorem reflectStageInputs_eq (inputs : List Resource) (hv : ∀ r ∈ inputs, ValidVecsize r) :
    ∀ (stride : Nat) (descs : List VkVertexInputAttributeDescription),
      reflectStageInputs inputs stride descs =
        some (if inputs = [] then stride else (stride + (inputStrides inputs).sum) % UINT32_MOD,
              descs ++ vertexAttributes inputs stride) := by
  induction inputs with
  | nil => intro stride descs; simp [reflectStageInputs, vertexAttributes]
  | cons r rest ih =>
    intro stride descs
    obtain ⟨format, hf⟩ := GetVulkanFormat_of_valid r (hv r (List.mem_cons_self _ _))
    have ih1 := ih (fun x hx => hv x (List.mem_cons_of_mem _ hx))
    simp only [reflectStageInputs, vertexAttributes, hf, ih1, inputStrides, List.map_cons,
      List.sum_cons, List.append_assoc, List.singleton_append, reduceCtorEq, if_false]
    congr 2
    by_cases hr : rest = []
    · subst hr; simp
    · simp only [hr, if_false, inputStrides]
      rw [Nat.add_mod, Nat.mod_mod, ← Nat.add_mod, Nat.add_assoc]

/-- The stage-input loop appends one attribute per input. -/
theorem vertexAttributes_length (inputs : List Resource)
    (hv : ∀ r ∈ inputs, ValidVecsize r) :
    ∀ stride : Nat, (vertexAttributes inputs stride).length = inputs.length := by
  induction inputs with
  | nil => intro stride; rfl
  | cons r rest ih =>
    intro stride
    obtain ⟨format, hf⟩ := GetVulkanFormat_of_valid r (hv r (List.mem_cons_self _ _))
    simp [vertexAttributes, hf, ih (fun x hx => hv x (List.mem_cons_of_mem _ hx))]

/-- The attribute at index `i` comes from input `i`; without wrap-around its
offset is the start stride plus the strides of the inputs before it. -/
theorem vertexAttributes_get (inputs : List Resource)
    (hv : ∀ r ∈ inputs, ValidVecsize r) :
    ∀ (stride : Nat), stride + (inputStrides inputs).sum < UINT32_MOD →
      ∀ (i : Nat) (a : VkVertexInputAttributeDescription),
        (vertexAttributes inputs stride).get? i = some a →
          (∃ r, inputs.get? i = some r ∧ GetVulkanFormat r.type = some a.format ∧
            a.binding = r.decorationBinding ∧ a.location = r.decorationLocation) ∧
          a.offset = stride + ((inputStrides inputs).take i).sum ∧
          a.offset + GetStrideFromVulkanFormat a.format =
            stride + ((inputStrides inputs).take (i + 1)).sum := by
  induction inputs with
  | nil => intro stride _ i a h; simp [vertexAttributes] at h
  | cons r rest ih =>
    intro stride hfit i a h
    obtain ⟨format, hf⟩ := GetVulkanFormat_of_valid r (hv r (List.mem_cons_self _ _))
    have hsum : (inputStrides (r :: rest)).sum =
        GetStrideFromVulkanFormat format + (inputStrides rest).sum := by
      simp [inputStrides, hf]
    have htake : ∀ k, ((inputStrides (r :: rest)).take (k + 1)).sum =
        GetStrideFromVulkanFormat format + ((inputStrides rest).take k).sum := by
      intro k; simp [inputStrides, hf]
    rw [hsum] at hfit
    simp only [vertexAttributes, hf] at h
    cases i with
    | zero =>
      simp only [List.get?_cons_zero, Option.some.injEq] at h
      subst h
      refine ⟨⟨r, by simp, hf, rfl, rfl⟩, by simp, ?_⟩
      rw [htake 0]; simp
    | succ k =>
      simp only [List.get?_cons_succ] at h
      have hmod : (stride + GetStrideFromVulkanFormat format) % UINT32_MOD =
          stride + GetStrideFromVulkanFormat format := Nat.mod_eq_of_lt (by omega)
      rw [hmod] at h
      obtain ⟨⟨r1, hr1, hfmt, hb, hl⟩, hoff, hnext⟩ :=
        ih (fun x hx => hv x (List.mem_cons_of_mem _ hx))
          (stride + GetStrideFromVulkanFormat format) (by omega) k a h
      refine ⟨⟨r1, by simpa using hr1, hfmt, hb, hl⟩, ?_, ?_⟩
      · rw [htake k, hoff]; omega
      · rw [htake (k + 1), hnext]; omega

/-- The last element of a list is the one at index `length - 1`. -/
theorem getLast?_eq_get?_pred {α : Type} (l : List α) :
    l.getLast? = l.get? (l.length - 1) := by
  rw [List.getLast?_eq_getElem?]
  simp

/-- What the loop body of `Init` leaves in the vertex members for a vertex
stage. -/
theorem reflectStage_vertex (s : VKShader) (resources : ShaderResources)
    (hv : ∀ r ∈ resources.stage_inputs, ValidVecsize r) :
    ∃ s1, reflectStage s .VERTEX resources = some s1 ∧
      s1.m_VertexInputAttributeDescriptions =
        s.m_VertexInputAttributeDescriptions ++ vertexAttributes resources.stage_inputs 0 ∧
      s1.m_VertexInputStride = (inputStrides resources.stage_inputs).sum % UINT32_MOD := by
  simp only [reflectStage, if_true, reflectStageInputs_eq _ hv]
  refine ⟨_, rfl, rfl, ?_⟩
  by_cases hnil : resources.stage_inputs = []
  · simp [hnil, inputStrides]
  · simp [hnil]

/-! ## Closed forms of the loops of `Init` -/

/-- Closed form of the uniform-buffer loop. -/
theorem reflectUniformBuffers_eq (stage : ShaderType) (us : List Resource) :
    ∀ infos, reflectUniformBuffers stage us infos =
      infos ++ us.map (layoutInfoOf .UNIFORM_BUFFER stage) := by
  induction us with
  | nil => intro infos; simp [reflectUniformBuffers]
  | cons u rest ih => intro infos; simp [reflectUniformBuffers, ih]

/-- Closed form of the sampled-image loop. -/
theorem reflectSampledImages_eq (stage : ShaderType) (us : List Resource) :
    ∀ infos, reflectSampledImages stage us infos =
      infos ++ us.map (layoutInfoOf .IMAGE_SAMPLER stage) := by
  induction us with
  | nil => intro infos; simp [reflectSampledImages]
  | cons u rest ih => intro infos; simp [reflectSampledImages, ih]

/-- Closed form of the push-constant loop. -/
theorem reflectPushConstants_eq (stage : ShaderType) (us : List Resource) :
    ∀ pcs, reflectPushConstants stage us pcs = pcs ++ us.map (pushConstantOf stage) := by
  induction us with
  | nil => intro pcs; simp [reflectPushConstants]
  | cons u rest ih => intro pcs; simp [reflectPushConstants, ih, pushConstantOf]

/-- The size accumulated over the active ranges is their sum modulo `2 ^ 32`. -/
theorem activeRangeSize_eq (ranges : List BufferRange) :
    ∀ size, size < UINT32_MOD →
      activeRangeSize ranges size = (size + activeRangeSum ranges) % UINT32_MOD := by
  induction ranges with
  | nil =>
    intro size h
    simp [activeRangeSize, activeRangeSum, Nat.mod_eq_of_lt h]
  | cons r rest ih =>
    intro size _
    have hpos : 0 < UINT32_MOD := by decide
    rw [activeRangeSize, ih _ (Nat.mod_lt _ hpos)]
    simp only [activeRangeSum, List.map_cons, List.sum_cons]
    rw [Nat.add_mod, Nat.mod_mod, ← Nat.add_mod, Nat.add_assoc, Nat.add_mod size,
      Nat.add_mod (r.range % UINT32_MOD), Nat.mod_mod, ← Nat.add_mod r.range, ← Nat.add_mod]

/-- What one iteration of the stage loop of `Init` appends to each table. -/
theorem reflectStage_eq (s : VKShader) (file : ShaderType × ShaderResources)
    (hv : file.1 = .VERTEX → ∀ r ∈ file.2.stage_inputs, ValidVecsize r) :
    ∃ s1, reflectStage s file.1 file.2 = some s1 ∧
      s1.m_VertexInputAttributeDescriptions =
        s.m_VertexInputAttributeDescriptions ++ stageVertexAttributes file ∧
      s1.m_DescriptorLayoutInfo = s.m_DescriptorLayoutInfo ++ stageLayoutInfos file ∧
      s1.m_PushConstants = s.m_PushConstants ++ stagePushConstants file ∧
      s1.m_ShaderTypes = s.m_ShaderTypes ∧ s1.m_StageCount = s.m_StageCount := by
  by_cases hvert : file.1 = .VERTEX
  · simp only [reflectStage, hvert, if_true, reflectStageInputs_eq _ (hv hvert),
      reflectUniformBuffers_eq, reflectSampledImages_eq, reflectPushConstants_eq,
      stageVertexAttributes, stageLayoutInfos, stagePushConstants]
    exact ⟨_, rfl, rfl, by simp, rfl, rfl, rfl⟩
  · simp only [reflectStage, hvert, if_false, reflectUniformBuffers_eq,
      reflectSampledImages_eq, reflectPushConstants_eq,
      stageVertexAttributes, stageLayoutInfos, stagePushConstants]
    exact ⟨_, rfl, by simp, by simp, rfl, rfl, rfl⟩

/-- What the stage loop of `Init` appends to each table. -/
theorem reflectStages_eq (files : List (ShaderType × ShaderResources))
    (hv : ValidStages files) :
    ∀ s, ∃ s1, reflectStages files s = some s1 ∧
      s1.m_VertexInputAttributeDescriptions =
        s.m_VertexInputAttributeDescriptions ++ files.flatMap stageVertexAttributes ∧
      s1.m_DescriptorLayoutInfo =
        s.m_DescriptorLayoutInfo ++ files.flatMap stageLayoutInfos ∧
      s1.m_PushConstants = s.m_PushConstants ++ files.flatMap stagePushConstants ∧
      s1.m_ShaderTypes = s.m_ShaderTypes ∧ s1.m_StageCount = s.m_StageCount := by
  induction files with
  | nil => intro s; exact ⟨s, rfl, by simp, by simp, by simp, rfl, rfl⟩
  | cons file rest ih =>
    intro s
    obtain ⟨s1, h1, ha, hd, hp, ht, hc⟩ :=
      reflectStage_eq s file (hv file (List.mem_cons_self _ _))
    obtain ⟨s2, h2, ha2, hd2, hp2, ht2, hc2⟩ :=
      ih (fun f hf => hv f (List.mem_cons_of_mem _ hf)) s1
    refine ⟨s2, ?_, ?_, ?_, ?_, ?_, ?_⟩
    · obtain ⟨stage, resources⟩ := file
      simp only [reflectStages]
      simp only at h1
      rw [h1]
      exact h2
    · rw [ha2, ha]; simp
    · rw [hd2, hd]; simp
    · rw [hp2, hp]; simp
    · rw [ht2, ht]
    · rw [hc2, hc]

/-- `Init` returns `true` and appends the contributions of all stages. -/
theorem Init_eq (s : VKShader) (files : List (ShaderType × ShaderResources))
    (hv : ValidStages files) :
    ∃ s1, Init s files = some (true, s1) ∧
      s1.m_VertexInputAttributeDescriptions =
        s.m_VertexInputAttributeDescriptions ++ files.flatMap stageVertexAttributes ∧
      s1.m_DescriptorLayoutInfo =
        s.m_DescriptorLayoutInfo ++ files.flatMap stageLayoutInfos ∧
      s1.m_PushConstants = s.m_PushConstants ++ files.flatMap stagePushConstants := by
  obtain ⟨s1, h1, ha, hd, hp, _, _⟩ := reflectStages_eq files hv
    { s with
      m_StageCount := files.length % UINT32_MOD
      m_ShaderTypes := s.m_ShaderTypes ++ files.map Prod.fst }
  refine ⟨s1, ?_, ha, hd, hp⟩
  simp only [Init, h1]

/-! ## C1 -/

/-- The iteration of the stage loop for a vertex stage: one attribute per
input is appended, the offset of each is the sum of the strides of the inputs
before it, and the stride left in `m_VertexInputStride` is the offset of the
last attribute plus its stride. -/
theorem reflectStage_vertex_offsets (s : VKShader) (resources : ShaderResources)
    (hv : ∀ r ∈ resources.stage_inputs, ValidVecsize r)
    (hfit : (inputStrides resources.stage_inputs).sum < UINT32_MOD) :
    ∃ s1 attrs, reflectStage s .VERTEX resources = some s1 ∧
      s1.m_VertexInputAttributeDescriptions =
        s.m_VertexInputAttributeDescriptions ++ attrs ∧
      attrs.length = resources.stage_inputs.length ∧
      (∀ i a, attrs.get? i = some a →
        (∃ r, resources.stage_inputs.get? i = some r ∧
          GetVulkanFormat r.type = some a.format) ∧
        GetStrideFromVulkanFormat a.format = (inputStrides resources.stage_inputs).getD i 0 ∧
        a.offset = ((inputStrides resources.stage_inputs).take i).sum) ∧
      (∀ a, attrs.get? 0 = some a → a.offset = 0) ∧
      s1.m_VertexInputStride = (inputStrides resources.stage_inputs).sum ∧
      (∀ a, attrs.getLast? = some a →
        a.offset + GetStrideFromVulkanFormat a.format = s1.m_VertexInputStride) := by
  obtain ⟨s1, hs1, hattrs, hstride⟩ := reflectStage_vertex s resources hv
  have hget := vertexAttributes_get resources.stage_inputs hv 0 (by omega)
  have hlen := vertexAttributes_length resources.stage_inputs hv 0
  have hstride1 : s1.m_VertexInputStride = (inputStrides resources.stage_inputs).sum := by
    rw [hstride, Nat.mod_eq_of_lt hfit]
  refine ⟨s1, vertexAttributes resources.stage_inputs 0, hs1, hattrs, hlen, ?_, ?_, hstride1, ?_⟩
  · intro i a ha
    obtain ⟨⟨r, hr, hf, _, _⟩, hoff, _⟩ := hget i a ha
    refine ⟨⟨r, hr, hf⟩, ?_, by simpa using hoff⟩
    have hr1 : resources.stage_inputs[i]? = some r := by simpa using hr
    simp [inputStrides, List.getD_eq_getElem?_getD, List.getElem?_map, hr1, hf]
  · intro a ha
    obtain ⟨_, hoff, _⟩ := hget 0 a ha
    simpa using hoff
  · intro a ha
    rw [getLast?_eq_get?_pred] at ha
    obtain ⟨_, _, hnext⟩ := hget _ a ha
    rw [hnext, hstride1, hlen]
    have hpos : 0 < resources.stage_inputs.length := by
      rcases Nat.eq_zero_or_pos resources.stage_inputs.length with h0 | h0
      · rw [hlen, h0] at ha
        have : vertexAttributes resources.stage_inputs 0 = [] :=
          List.eq_nil_of_length_eq_zero (by rw [hlen, h0])
        rw [this] at ha
        simp at ha
      · exact h0
    have hl : resources.stage_inputs.length - 1 + 1 =
        (inputStrides resources.stage_inputs).length := by
      simp [inputStrides]; omega
    rw [hl, List.take_length]
    simp

/-- The stage loop over a list of stages is the loop over a first part
followed by the loop over the remainder. -/
theorem reflectStages_append (l1 l2 : List (ShaderType × ShaderResources)) :
    ∀ s, reflectStages (l1 ++ l2) s =
      match reflectStages l1 s with
      | none => none
      | some s1 => reflectStages l2 s1 := by
  induction l1 with
  | nil => intro s; rfl
  | cons file rest ih =>
    intro s
    obtain ⟨stage, resources⟩ := file
    simp only [List.cons_append, reflectStages]
    cases reflectStage s stage resources with
    | none => rfl
    | some s1 => exact ih s1

/-- A stage other than the vertex stage leaves the vertex stride and the
vertex attributes as they are. -/
theorem reflectStage_not_vertex (s : VKShader) (stage : ShaderType)
    (resources : ShaderResources) (h : stage ≠ .VERTEX) :
    ∃ s1, reflectStage s stage resources = some s1 ∧
      s1.m_VertexInputStride = s.m_VertexInputStride ∧
      s1.m_VertexInputAttributeDescriptions = s.m_VertexInputAttributeDescriptions := by
  simp only [reflectStage, h, if_false]
  exact ⟨_, rfl, rfl, rfl⟩

/-- Stages other than the vertex stage leave the vertex stride and the vertex
attributes as they are. -/
theorem reflectStages_no_vertex (files : List (ShaderType × ShaderResources))
    (h : ∀ file ∈ files, file.1 ≠ .VERTEX) :
    ∀ s, ∃ s1, reflectStages files s = some s1 ∧
      s1.m_VertexInputStride = s.m_VertexInputStride ∧
      s1.m_VertexInputAttributeDescriptions = s.m_VertexInputAttributeDescriptions := by
  induction files with
  | nil => intro s; exact ⟨s, rfl, rfl, rfl⟩
  | cons file rest ih =>
    intro s
    obtain ⟨stage, resources⟩ := file
    obtain ⟨s1, h1, hs, ha⟩ :=
      reflectStage_not_vertex s stage resources (h (stage, resources) (List.mem_cons_self _ _))
    obtain ⟨s2, h2, hs2, ha2⟩ := ih (fun f hf => h f (List.mem_cons_of_mem _ hf)) s1
    refine ⟨s2, ?_, by rw [hs2, hs], by rw [ha2, ha]⟩
    simp only [reflectStages, h1]
    exact h2

/-- The keys of a stage map are distinct, so the stages before and after the
vertex stage are not vertex stages. -/
theorem split_at_vertex (files : List (ShaderType × ShaderResources))
    (resources : ShaderResources) (hmem : (ShaderType.VERTEX, resources) ∈ files)
    (hkeys : (files.map Prod.fst).Nodup) :
    ∃ before after, files = before ++ (ShaderType.VERTEX, resources) :: after ∧
      (∀ file ∈ before, file.1 ≠ .VERTEX) ∧ (∀ file ∈ after, file.1 ≠ .VERTEX) := by
  obtain ⟨before, after, hsplit⟩ := List.append_of_mem hmem
  subst hsplit
  rw [List.map_append, List.map_cons, List.nodup_append] at hkeys
  obtain ⟨_, hcons, hdisj⟩ := hkeys
  rw [List.nodup_cons] at hcons
  refine ⟨before, after, rfl, ?_, ?_⟩
  · intro file hfile heq
    exact hdisj (List.mem_map_of_mem Prod.fst hfile) (by rw [heq]; exact List.mem_cons_self _ _)
  · intro file hfile heq
    have hin := List.mem_map_of_mem Prod.fst hfile
    rw [heq] at hin
    exact hcons.1 hin

/-- C1: for every program (a stage map, whose keys are distinct) and its
vertex stage, whose inputs index the format tables and whose strides add up to
a value of the 32-bit stride field, `VKShader::Init` returns with one
attribute appended per vertex input, in order; the offset of the i-th
attribute is the sum of `GetStrideFromVulkanFormat` of the formats of the
inputs before it (so the first offset is 0), and the offset of the last
attribute plus its stride is the `m_VertexInputStride` that `Init` reports,
whatever stages are reflected before and after the vertex stage. -/
theorem C1_vertex_offsets_are_prefix_sums (s : VKShader)
    (files : List (ShaderType × ShaderResources)) (resources : ShaderResources)
    (hmem : (ShaderType.VERTEX, resources) ∈ files)
    (hkeys : (files.map Prod.fst).Nodup)
    (hv : ∀ r ∈ resources.stage_inputs, ValidVecsize r)
    (hfit : (inputStrides resources.stage_inputs).sum < UINT32_MOD) :
    ∃ s1 attrs, Init s files = some (true, s1) ∧
      s1.m_VertexInputAttributeDescriptions =
        s.m_VertexInputAttributeDescriptions ++ attrs ∧
      attrs.length = resources.stage_inputs.length ∧
      (∀ i a, attrs.get? i = some a →
        (∃ r, resources.stage_inputs.get? i = some r ∧
          GetVulkanFormat r.type = some a.format) ∧
        GetStrideFromVulkanFormat a.format = (inputStrides resources.stage_inputs).getD i 0 ∧
        a.offset = ((inputStrides resources.stage_inputs).take i).sum) ∧
      (∀ a, attrs.get? 0 = some a → a.offset = 0) ∧
      s1.m_VertexInputStride = (inputStrides resources.stage_inputs).sum ∧
      (∀ a, attrs.getLast? = some a →
        a.offset + GetStrideFromVulkanFormat a.format = s1.m_VertexInputStride) := by
  obtain ⟨before, after, hsplit, hbefore, hafter⟩ := split_at_vertex files resources hmem hkeys
  obtain ⟨sa, ha, hsa, haa⟩ := reflectStages_no_vertex before hbefore
    { s with
      m_StageCount := files.length % UINT32_MOD
      m_ShaderTypes := s.m_ShaderTypes ++ files.map Prod.fst }
  obtain ⟨sb, attrs, hb, hattrs, hlen, hget, hfirst, hstride, hlast⟩ :=
    reflectStage_vertex_offsets sa resources hv hfit
  obtain ⟨sc, hc, hsc, hac⟩ := reflectStages_no_vertex after hafter sb
  have hrun : reflectStages files
      { s with
        m_StageCount := files.length % UINT32_MOD
        m_ShaderTypes := s.m_ShaderTypes ++ files.map Prod.fst } = some sc := by
    conv => lhs; arg 1; rw [hsplit]
    rw [reflectStages_append, ha]
    simp only [reflectStages, hb]
    exact hc
  refine ⟨sc, attrs, ?_, ?_, hlen, hget, hfirst, ?_, ?_⟩
  · simp only [Init, hrun]
  · rw [hac, hattrs, haa]
  · rw [hsc, hstride]
  · intro a hlasta
    rw [hsc]
    exact hlast a hlasta

/-- C1, witness: for the program with a vertex stage of two float4 inputs
followed by a fragment stage with one sampled image, `Init` reports the
attributes at offsets 0 and 16 and a total vertex stride of 32 bytes. -/
theorem C1_vertex_offsets_two_float4 :
    ((ShaderType.VERTEX, twoFloat4Vertex) ∈
        [(ShaderType.VERTEX, twoFloat4Vertex), (ShaderType.FRAGMENT, oneImageFragment)] ∧
      ([(ShaderType.VERTEX, twoFloat4Vertex),
        (ShaderType.FRAGMENT, oneImageFragment)].map Prod.fst).Nodup ∧
      (∀ r ∈ twoFloat4Vertex.stage_inputs, ValidVecsize r) ∧
      (inputStrides twoFloat4Vertex.stage_inputs).sum < UINT32_MOD) ∧
    (∃ s1 attrs, Init VKShader.empty
        [(.VERTEX, twoFloat4Vertex), (.FRAGMENT, oneImageFragment)] = some (true, s1) ∧
      s1.m_VertexInputAttributeDescriptions =
        VKShader.empty.m_VertexInputAttributeDescriptions ++ attrs ∧
      attrs.length = twoFloat4Vertex.stage_inputs.length ∧
      (∀ i a, attrs.get? i = some a →
        (∃ r, twoFloat4Vertex.stage_inputs.get? i = some r ∧
          GetVulkanFormat r.type = some a.format) ∧
        GetStrideFromVulkanFormat a.format =
          (inputStrides twoFloat4Vertex.stage_inputs).getD i 0 ∧
        a.offset = ((inputStrides twoFloat4Vertex.stage_inputs).take i).sum) ∧
      (∀ a, attrs.get? 0 = some a → a.offset = 0) ∧
      s1.m_VertexInputStride = (inputStrides twoFloat4Vertex.stage_inputs).sum ∧
      (∀ a, attrs.getLast? = some a →
        a.offset + GetStrideFromVulkanFormat a.format = s1.m_VertexInputStride)) ∧
    (Init VKShader.empty [(.VERTEX, twoFloat4Vertex), (.FRAGMENT, oneImageFragment)]).map
      (fun p => (p.1, p.2.m_VertexInputAttributeDescriptions.map
        VkVertexInputAttributeDescription.offset, p.2.m_VertexInputStride)) =
      some (true, [0, 16], 32) :=
  ⟨⟨by decide, by decide, by decide, by decide⟩,
    C1_vertex_offsets_are_prefix_sums VKShader.empty
      [(.VERTEX, twoFloat4Vertex), (.FRAGMENT, oneImageFragment)] twoFloat4Vertex
      (by decide) (by decide) (by decide) (by decide),
    by decide⟩

/-! ## C2 -/

/-- Over all stages, one attribute is recorded per vertex input. -/
theorem vertexAttributes_flatMap_length (files : List (ShaderType × ShaderResources))
    (hv : ValidStages files) :
    (files.flatMap stageVertexAttributes).length = (vertexInputs files).length := by
  induction files with
  | nil => rfl
  | cons file rest ih =>
    have ih1 := ih (fun f hf => hv f (List.mem_cons_of_mem _ hf))
    simp only [vertexInputs] at ih1
    simp only [List.flatMap_cons, List.length_append, vertexInputs, ih1]
    congr 1
    by_cases hvert : file.1 = .VERTEX
    · simp [stageVertexAttributes, hvert,
        vertexAttributes_length _ (hv file (List.mem_cons_self _ _) hvert)]
    · simp [stageVertexAttributes, hvert]

/-- C2, counterexample: a vertex stage with one input of base kind `Half` (not
one of the four supported kinds) is reflected with success, the attribute
getting the fallback format and a stride of 16; a vertex stage with one
`double` input, whose format `VK_FORMAT_R64_SFLOAT` has no stride entry, is
reflected with success too, with a total stride of 0. -/
theorem C2_unsupported_input_still_succeeds :
    (¬ SupportedBaseKind (vertexInput 0 .Half 4).type.basetype ∧
      (Init VKShader.empty [(.VERTEX, inputsOnly [vertexInput 0 .Half 4])]).map
        (fun p => (p.1, p.2.m_VertexInputAttributeDescriptions, p.2.m_VertexInputStride)) =
        some (true,
          [{ location := 0, binding := 0, format := .VK_FORMAT_R32G32B32A32_SFLOAT,
             offset := 0 }], 16)) ∧
    (GetVulkanFormat (vertexInput 0 .Double 1).type = some .VK_FORMAT_R64_SFLOAT ∧
      hasStrideEntry .VK_FORMAT_R64_SFLOAT = false ∧
      (Init VKShader.empty [(.VERTEX, inputsOnly [vertexInput 0 .Double 1])]).map
        (fun p => (p.1, p.2.m_VertexInputAttributeDescriptions, p.2.m_VertexInputStride)) =
        some (true,
          [{ location := 0, binding := 0, format := .VK_FORMAT_R64_SFLOAT,
             offset := 0 }], 0)) := by
  decide

/-- C2, amended: `VKShader::Init` has no failure path.  For every program
whose vertex inputs have 1 to 4 components it returns `true` and records one
attribute per vertex input; an input whose base kind is not one of the four
supported kinds gets the format `VK_FORMAT_R32G32B32A32_SFLOAT`, and a format
without an entry in the stride table contributes a stride of 0. -/
theorem C2_init_always_reports_success (s : VKShader)
    (files : List (ShaderType × ShaderResources)) (hv : ValidStages files) :
    (∃ s1, Init s files = some (true, s1) ∧
      s1.m_VertexInputAttributeDescriptions.length =
        s.m_VertexInputAttributeDescriptions.length + (vertexInputs files).length) ∧
    (∀ type : SPIRType, ¬ SupportedBaseKind type.basetype →
      GetVulkanFormat type = some .VK_FORMAT_R32G32B32A32_SFLOAT) ∧
    (∀ format : VkFormat, hasStrideEntry format = false →
      GetStrideFromVulkanFormat format = 0) := by
  refine ⟨?_, ?_, ?_⟩
  · obtain ⟨s1, h1, ha, _, _⟩ := Init_eq s files hv
    refine ⟨s1, h1, ?_⟩
    rw [ha, List.length_append, vertexAttributes_flatMap_length files hv]
  · intro type hk
    unfold SupportedBaseKind at hk
    unfold GetVulkanFormat
    cases hb : type.basetype <;> simp_all
  · intro format hf
    cases format <;> simp_all [hasStrideEntry, GetStrideFromVulkanFormat]

/-- C2, witness of the amended statement at a vertex stage with one `Half`
input. -/
theorem C2_init_always_reports_success_witness :
    ValidStages [(.VERTEX, inputsOnly [vertexInput 0 .Half 4])] ∧
    (∃ s1, Init VKShader.empty [(.VERTEX, inputsOnly [vertexInput 0 .Half 4])] =
        some (true, s1) ∧
      s1.m_VertexInputAttributeDescriptions.length =
        VKShader.empty.m_VertexInputAttributeDescriptions.length +
          (vertexInputs [(.VERTEX, inputsOnly [vertexInput 0 .Half 4])]).length) :=
  ⟨by decide,
    (C2_init_always_reports_success VKShader.empty
      [(.VERTEX, inputsOnly [vertexInput 0 .Half 4])] (by decide)).1⟩

/-! ## C3 -/

/-- The kinds with a stride entry have between 1 and 4 components. -/
theorem HasStrideKind_valid (r : Resource) (h : HasStrideKind r) : ValidVecsize r := by
  unfold HasStrideKind at h
  unfold ValidVecsize
  omega

/-- The kinds with a stride entry derive a format of positive stride. -/
theorem HasStrideKind_stride_pos (r : Resource) (h : HasStrideKind r) (format : VkFormat)
    (hf : GetVulkanFormat r.type = some format) : 0 < GetStrideFromVulkanFormat format := by
  unfold HasStrideKind at h
  unfold GetVulkanFormat at hf
  rcases h with ⟨hb, h1, h4⟩ | ⟨hb | hb, h2, h4⟩
  · have hv : r.type.vecsize = 1 ∨ r.type.vecsize = 2 ∨ r.type.vecsize = 3 ∨
        r.type.vecsize = 4 := by omega
    rcases hv with hv | hv | hv | hv <;>
      simp [hb, vecIndex, hv, UINT32_MOD, float_types] at hf <;>
      subst hf <;> decide
  · have hv : r.type.vecsize = 2 ∨ r.type.vecsize = 3 ∨ r.type.vecsize = 4 := by omega
    rcases hv with hv | hv | hv <;>
      simp [hb, vecIndex, hv, UINT32_MOD, int_types] at hf <;>
      subst hf <;> decide
  · have hv : r.type.vecsize = 2 ∨ r.type.vecsize = 3 ∨ r.type.vecsize = 4 := by omega
    rcases hv with hv | hv | hv <;>
      simp [hb, vecIndex, hv, UINT32_MOD, uint_types] at hf <;>
      subst hf <;> decide

/-- Prefix sums of natural numbers grow with the length of the prefix. -/
theorem take_sum_mono (l : List Nat) :
    ∀ m n : Nat, m ≤ n → (l.take m).sum ≤ (l.take n).sum := by
  induction l with
  | nil => intro m n _; simp
  | cons x rest ih =>
    intro m n hmn
    cases m with
    | zero => simp
    | succ m1 =>
      cases n with
      | zero => omega
      | succ n1 =>
        simp only [List.take_succ_cons, List.sum_cons]
        have := ih m1 n1 (by omega)
        omega

/-- C3, counterexample: a vertex stage with a `double` input followed by a
`float` input (both of a supported base kind, one component each) is reflected
with both attributes at offset 0, because `VK_FORMAT_R64_SFLOAT` has no entry
in the stride table. -/
theorem C3_double_input_repeats_offset :
    (∀ r ∈ [vertexInput 0 .Double 1, vertexInput 1 .Float 1],
      SupportedBaseKind r.type.basetype ∧ ValidVecsize r) ∧
    (reflectStage VKShader.empty .VERTEX
        (inputsOnly [vertexInput 0 .Double 1, vertexInput 1 .Float 1])).map
      (fun s1 => s1.m_VertexInputAttributeDescriptions.map
        VkVertexInputAttributeDescription.offset) = some [0, 0] ∧
    ¬ ((0 : Nat) < 0) := by
  decide

/-- C3, amended: for every vertex stage whose inputs are float with 1 to 4
components or signed or unsigned int with 2 to 4 components, and whose strides
add up to a value of the 32-bit stride field, reflection completes, every
reflected attribute contributes a positive stride, and the offsets are strictly
increasing in reflection order. -/
theorem C3_offsets_strictly_increasing (s : VKShader) (resources : ShaderResources)
    (hk : ∀ r ∈ resources.stage_inputs, HasStrideKind r)
    (hfit : (inputStrides resources.stage_inputs).sum < UINT32_MOD) :
    ∃ s1 attrs, reflectStage s .VERTEX resources = some s1 ∧
      s1.m_VertexInputAttributeDescriptions =
        s.m_VertexInputAttributeDescriptions ++ attrs ∧
      attrs.length = resources.stage_inputs.length ∧
      (∀ a ∈ attrs, 0 < GetStrideFromVulkanFormat a.format) ∧
      (∀ i j a b, i < j → attrs.get? i = some a → attrs.get? j = some b →
        a.offset < b.offset) := by
  have hv : ∀ r ∈ resources.stage_inputs, ValidVecsize r :=
    fun r hr => HasStrideKind_valid r (hk r hr)
  obtain ⟨s1, hs1, hattrs, _⟩ := reflectStage_vertex s resources hv
  have hget := vertexAttributes_get resources.stage_inputs hv 0 (by omega)
  have hpos : ∀ i a, (vertexAttributes resources.stage_inputs 0).get? i = some a →
      0 < GetStrideFromVulkanFormat a.format := by
    intro i a ha
    obtain ⟨⟨r, hr, hf, _, _⟩, _, _⟩ := hget i a ha
    exact HasStrideKind_stride_pos r (hk r (List.get?_mem hr)) a.format hf
  refine ⟨s1, vertexAttributes resources.stage_inputs 0, hs1, hattrs,
    vertexAttributes_length _ hv 0, ?_, ?_⟩
  · intro a ha
    obtain ⟨i, hi⟩ := List.get?_of_mem ha
    exact hpos i a hi
  · intro i j a b hij ha hb
    obtain ⟨_, _, hnext⟩ := hget i a ha
    obtain ⟨_, hoffb, _⟩ := hget j b hb
    have hp := hpos i a ha
    have hm := take_sum_mono (inputStrides resources.stage_inputs) (i + 1) j hij
    omega

/-- C3, witness of the amended statement: a float3 input followed by a float2
input. -/
theorem C3_offsets_strictly_increasing_witness :
    (∀ r ∈ (inputsOnly [vertexInput 0 .Float 3, vertexInput 1 .Float 2]).stage_inputs,
      HasStrideKind r) ∧
    (inputStrides (inputsOnly [vertexInput 0 .Float 3, vertexInput 1 .Float 2]).stage_inputs).sum
      < UINT32_MOD ∧
    ∃ s1 attrs, reflectStage VKShader.empty .VERTEX
        (inputsOnly [vertexInput 0 .Float 3, vertexInput 1 .Float 2]) = some s1 ∧
      s1.m_VertexInputAttributeDescriptions =
        VKShader.empty.m_VertexInputAttributeDescriptions ++ attrs ∧
      attrs.length =
        (inputsOnly [vertexInput 0 .Float 3, vertexInput 1 .Float 2]).stage_inputs.length ∧
      (∀ a ∈ attrs, 0 < GetStrideFromVulkanFormat a.format) ∧
      (∀ i j a b, i < j → attrs.get? i = some a → attrs.get? j = some b →
        a.offset < b.offset) :=
  ⟨by decide, by decide,
    C3_offsets_strictly_increasing VKShader.empty
      (inputsOnly [vertexInput 0 .Float 3, vertexInput 1 .Float 2]) (by decide) (by decide)⟩

/-! ## C4 -/

/-- Without wrap-around the blocks of a stage are sized by their active ranges. -/
theorem stagePushConstants_eq (file : ShaderType × ShaderResources)
    (hfit : ∀ u ∈ file.2.push_constant_buffers,
      activeRangeSum u.activeBufferRanges < UINT32_MOD) :
    stagePushConstants file = file.2.push_constant_buffers.map (activePushConstant file.1) := by
  unfold stagePushConstants
  apply List.map_congr_left
  intro u hu
  have h0 : (0 : Nat) < UINT32_MOD := by decide
  simp only [pushConstantOf, activePushConstant, activeRangeSize_eq _ 0 h0, Nat.zero_add,
    Nat.mod_eq_of_lt (hfit u hu)]

/-- Without wrap-around the blocks of all stages are sized by their active
ranges. -/
theorem flatMap_stagePushConstants_eq (files : List (ShaderType × ShaderResources))
    (hfit : ∀ file ∈ files, ∀ u ∈ file.2.push_constant_buffers,
      activeRangeSum u.activeBufferRanges < UINT32_MOD) :
    files.flatMap stagePushConstants =
      files.flatMap fun file => file.2.push_constant_buffers.map (activePushConstant file.1) := by
  induction files with
  | nil => rfl
  | cons file rest ih =>
    simp only [List.flatMap_cons]
    rw [ih (fun f hf => hfit f (List.mem_cons_of_mem _ hf)),
      stagePushConstants_eq file (hfit file (List.mem_cons_self _ _))]

/-- C4: for every program whose push-constant blocks have active ranges adding
up to a value of the 32-bit size field, `VKShader::Init` appends, per stage in
stage order, exactly one `PushConstant` per declared block, tagged with that
stage, whose size is the sum of the byte ranges of the active members and whose
buffer is allocated with exactly that size. -/
theorem C4_push_constant_active_size (s : VKShader)
    (files : List (ShaderType × ShaderResources)) (hv : ValidStages files)
    (hfit : ∀ file ∈ files, ∀ u ∈ file.2.push_constant_buffers,
      activeRangeSum u.activeBufferRanges < UINT32_MOD) :
    ∃ s1, Init s files = some (true, s1) ∧
      s1.m_PushConstants = s.m_PushConstants ++
        files.flatMap (fun file =>
          file.2.push_constant_buffers.map (fun u =>
            ({ size := (u.activeBufferRanges.map BufferRange.range).sum
               shaderStage := file.1
               data := some (u.activeBufferRanges.map BufferRange.range).sum } :
              PushConstant))) := by
  obtain ⟨s1, h1, _, _, hp⟩ := Init_eq s files hv
  refine ⟨s1, h1, ?_⟩
  rw [hp, flatMap_stagePushConstants_eq files hfit]
  rfl

/-- C4, witness: a fragment stage with one push-constant block whose active
members span 64 and 16 bytes gets one block of 80 bytes. -/
theorem C4_push_constant_active_size_witness :
    ValidStages [(.FRAGMENT, pushConstantsOnly [pushConstantBlock [64, 16]])] ∧
    (∃ s1, Init VKShader.empty [(.FRAGMENT, pushConstantsOnly [pushConstantBlock [64, 16]])] =
        some (true, s1) ∧
      s1.m_PushConstants = VKShader.empty.m_PushConstants ++
        [(.FRAGMENT, pushConstantsOnly [pushConstantBlock [64, 16]])].flatMap (fun file =>
          file.2.push_constant_buffers.map (fun u =>
            ({ size := (u.activeBufferRanges.map BufferRange.range).sum
               shaderStage := file.1
               data := some (u.activeBufferRanges.map BufferRange.range).sum } :
              PushConstant)))) ∧
    (Init VKShader.empty [(.FRAGMENT, pushConstantsOnly [pushConstantBlock [64, 16]])]).map
      (fun p => p.2.m_PushConstants) =
      some [{ size := 80, shaderStage := .FRAGMENT, data := some 80 }] :=
  ⟨by decide,
    C4_push_constant_active_size VKShader.empty
      [(.FRAGMENT, pushConstantsOnly [pushConstantBlock [64, 16]])] (by decide) (by decide),
    by decide⟩

/-! ## C5 -/

/-- The entry pushed by the loops is the entry the specification describes. -/
theorem layoutInfoOf_eq (kind : DescriptorType) (stage : ShaderType) (u : Resource) :
    layoutInfoOf kind stage u = bindingInfo kind stage u := by
  unfold layoutInfoOf bindingInfo arrayCount
  cases h : u.type.array <;> simp

/-- The number of entries contributed by all stages. -/
theorem flatMap_stageLayoutInfos_length (files : List (ShaderType × ShaderResources)) :
    (files.flatMap stageLayoutInfos).length =
      (files.map fun file =>
        file.2.uniform_buffers.length + file.2.sampled_images.length).sum := by
  induction files with
  | nil => rfl
  | cons file rest ih =>
    rw [List.flatMap_cons, List.length_append, List.map_cons, List.sum_cons, ih]
    simp [stageLayoutInfos]

/-- C5: for every program, `VKShader::Init` appends to `m_DescriptorLayoutInfo`,
per stage in stage order, one uniform-buffer entry per uniform buffer and then
one image-sampler entry per sampled image, each tagged with the owning stage
and carrying the set and binding annotations of the resource and its first
array dimension (1 if it is not an array).  Nothing is merged, so the table
grows by the number of uniform buffers and sampled images over all stages. -/
theorem C5_descriptor_layout_entries (s : VKShader)
    (files : List (ShaderType × ShaderResources)) (hv : ValidStages files) :
    ∃ s1, Init s files = some (true, s1) ∧
      s1.m_DescriptorLayoutInfo = s.m_DescriptorLayoutInfo ++
        files.flatMap (fun file =>
          file.2.uniform_buffers.map (fun u =>
            ({ type := .UNIFORM_BUFFER
               stage := file.1
               binding := u.decorationBinding
               set := u.decorationDescriptorSet
               count := u.type.array.head?.getD 1 } : DescriptorLayoutInfo)) ++
          file.2.sampled_images.map (fun u =>
            ({ type := .IMAGE_SAMPLER
               stage := file.1
               binding := u.decorationBinding
               set := u.decorationDescriptorSet
               count := u.type.array.head?.getD 1 } : DescriptorLayoutInfo))) ∧
      s1.m_DescriptorLayoutInfo.length = s.m_DescriptorLayoutInfo.length +
        (files.map fun file =>
          file.2.uniform_buffers.length + file.2.sampled_images.length).sum := by
  obtain ⟨s1, h1, _, hd, _⟩ := Init_eq s files hv
  have hstage : ∀ file : ShaderType × ShaderResources, stageLayoutInfos file =
      file.2.uniform_buffers.map (bindingInfo .UNIFORM_BUFFER file.1) ++
        file.2.sampled_images.map (bindingInfo .IMAGE_SAMPLER file.1) := by
    intro file
    simp only [stageLayoutInfos]
    congr 1 <;> exact List.map_congr_left (fun u _ => layoutInfoOf_eq _ _ u)
  refine ⟨s1, h1, ?_, ?_⟩
  · rw [hd]
    congr 1
    exact congrArg files.flatMap (funext hstage)
  · rw [hd, List.length_append, flatMap_stageLayoutInfos_length]

/-- C5, witness: a vertex stage with two float4 inputs and a fragment stage
with one sampled image at set 0, binding 0 yield exactly one entry (image
sampler, fragment, set 0, binding 0, count 1). -/
theorem C5_descriptor_layout_entries_witness :
    ValidStages [(.VERTEX, twoFloat4Vertex), (.FRAGMENT, oneImageFragment)] ∧
    (∃ s1, Init VKShader.empty [(.VERTEX, twoFloat4Vertex), (.FRAGMENT, oneImageFragment)] =
        some (true, s1) ∧
      s1.m_DescriptorLayoutInfo.length = VKShader.empty.m_DescriptorLayoutInfo.length +
        ([(ShaderType.VERTEX, twoFloat4Vertex), (ShaderType.FRAGMENT, oneImageFragment)].map
          fun file => file.2.uniform_buffers.length + file.2.sampled_images.length).sum) ∧
    (Init VKShader.empty [(.VERTEX, twoFloat4Vertex), (.FRAGMENT, oneImageFragment)]).map
      (fun p => p.2.m_DescriptorLayoutInfo) =
      some [{ type := .IMAGE_SAMPLER, stage := .FRAGMENT, binding := 0, set := 0, count := 1 }] :=
  ⟨by decide,
    (C5_descriptor_layout_entries VKShader.empty
      [(.VERTEX, twoFloat4Vertex), (.FRAGMENT, oneImageFragment)] (by decide)).imp
      (fun _ h => ⟨h.1, h.2.2⟩),
    by decide⟩

/-! ## C6 -/

/-- C6: every call on a command buffer either succeeds and moves the state one
step along the cycle Idle, Recording, Ended, Submitted, Idle, or fails and leaves
the buffer unchanged.  A call succeeds exactly when it is the one call in order
for the current state: `BeginRecording` from `Idle`, `EndRecording` from
`Recording`, `Execute` from `Ended`, the recycling from `Submitted`; every other
call fails.  In particular `EndRecording` from `Idle` and a second
`BeginRecording` fail without changing the buffer.  No call changes the native
handle or the primary flag. -/
theorem C6_command_buffer_cycle (c : VKCommandBuffer) (call : CommandBufferCall) :
    ((c.call call).1 = true → (c.call call).2.m_State = c.m_State.next) ∧
    ((c.call call).1 = false → (c.call call).2 = c) ∧
    (c.BeginRecording.1 = true ↔ c.m_State = .Idle) ∧
    (c.EndRecording.1 = true ↔ c.m_State = .Recording) ∧
    (c.m_State = .Idle → c.EndRecording = (false, c)) ∧
    (c.BeginRecording.1 = true →
      c.BeginRecording.2.BeginRecording = (false, c.BeginRecording.2)) ∧
    (∀ waitFence, (c.Execute waitFence).1 = true ↔ c.m_State = .Ended) ∧
    (c.Recycle.1 = true ↔ c.m_State = .Submitted) ∧
    ((c.call call).1 = true ↔
      (c.m_State = .Idle ∧ call = .BeginRecording) ∨
      (c.m_State = .Recording ∧ call = .EndRecording) ∨
      (c.m_State = .Ended ∧ ∃ waitFence, call = .Execute waitFence) ∨
      (c.m_State = .Submitted ∧ call = .Recycle)) ∧
    (c.call call).2.m_CommandBuffer = c.m_CommandBuffer ∧
    (c.call call).2.m_Primary = c.m_Primary := by
  obtain ⟨handle, primary, state⟩ := c
  refine ⟨?_, ?_, ?_, ?_, ?_, ?_, ?_, ?_, ?_, ?_, ?_⟩
  · cases call with
    | Execute waitFence =>
      cases waitFence <;> cases state <;>
        simp [VKCommandBuffer.call, VKCommandBuffer.Execute, CommandBufferState.next]
    | _ =>
      cases state <;>
        simp [VKCommandBuffer.call, VKCommandBuffer.BeginRecording,
          VKCommandBuffer.EndRecording, VKCommandBuffer.Recycle, CommandBufferState.next]
  · cases call with
    | Execute waitFence =>
      cases waitFence <;> cases state <;>
        simp [VKCommandBuffer.call, VKCommandBuffer.Execute]
    | _ =>
      cases state <;>
        simp [VKCommandBuffer.call, VKCommandBuffer.BeginRecording,
          VKCommandBuffer.EndRecording, VKCommandBuffer.Recycle]
  · cases state <;> simp [VKCommandBuffer.BeginRecording]
  · cases state <;> simp [VKCommandBuffer.EndRecording]
  · intro h
    simp only at h
    subst h
    simp [VKCommandBuffer.EndRecording]
  · cases state <;> simp [VKCommandBuffer.BeginRecording]
  · intro waitFence
    cases waitFence <;> cases state <;> simp [VKCommandBuffer.Execute]
  · cases state <;> simp [VKCommandBuffer.Recycle]
  · cases call with
    | Execute waitFence =>
      cases waitFence <;> cases state <;>
        simp [VKCommandBuffer.call, VKCommandBuffer.Execute]
    | _ =>
      cases state <;>
        simp [VKCommandBuffer.call, VKCommandBuffer.BeginRecording,
          VKCommandBuffer.EndRecording, VKCommandBuffer.Recycle]
  · cases call with
    | Execute waitFence =>
      cases waitFence <;> cases state <;>
        simp [VKCommandBuffer.call, VKCommandBuffer.Execute]
    | _ =>
      cases state <;>
        simp [VKCommandBuffer.call, VKCommandBuffer.BeginRecording,
          VKCommandBuffer.EndRecording, VKCommandBuffer.Recycle]
  · cases call with
    | Execute waitFence =>
      cases waitFence <;> cases state <;>
        simp [VKCommandBuffer.call, VKCommandBuffer.Execute]
    | _ =>
      cases state <;>
        simp [VKCommandBuffer.call, VKCommandBuffer.BeginRecording,
          VKCommandBuffer.EndRecording, VKCommandBuffer.Recycle]

/-- C6, witness: on an idle buffer `EndRecording` fails and changes nothing,
after a first `BeginRecording` a second one fails and changes nothing, and an
`Execute` or a recycling of an idle buffer fails. -/
theorem C6_command_buffer_cycle_witness :
    (VKCommandBuffer.EndRecording
        { m_CommandBuffer := 1, m_Primary := true, m_State := .Idle } =
      (false, { m_CommandBuffer := 1, m_Primary := true, m_State := .Idle })) ∧
    (VKCommandBuffer.BeginRecording
        (VKCommandBuffer.BeginRecording
          { m_CommandBuffer := 1, m_Primary := true, m_State := .Idle }).2 =
      (false, (VKCommandBuffer.BeginRecording
          { m_CommandBuffer := 1, m_Primary := true, m_State := .Idle }).2)) ∧
    ¬ ((VKCommandBuffer.Execute
        { m_CommandBuffer := 1, m_Primary := true, m_State := .Idle } true).1 = true) ∧
    ¬ ((VKCommandBuffer.Recycle
        { m_CommandBuffer := 1, m_Primary := true, m_State := .Idle }).1 = true) :=
  ⟨(C6_command_buffer_cycle { m_CommandBuffer := 1, m_Primary := true, m_State := .Idle }
      .EndRecording).2.2.2.2.1 rfl,
    (C6_command_buffer_cycle { m_CommandBuffer := 1, m_Primary := true, m_State := .Idle }
      .BeginRecording).2.2.2.2.2.1 rfl,
    fun h => absurd
      (((C6_command_buffer_cycle { m_CommandBuffer := 1, m_Primary := true, m_State := .Idle }
        .BeginRecording).2.2.2.2.2.2.1 true).mp h) (by decide),
    fun h => absurd
      ((C6_command_buffer_cycle { m_CommandBuffer := 1, m_Primary := true, m_State := .Idle }
        .BeginRecording).2.2.2.2.2.2.2.1.mp h) (by decide)⟩

/-! ## C7 -/

/-- The resize path never begins recording. -/
theorem OnResize_no_BeginRecording (r : VKRenderer) (capabilities : VkSurfaceCapabilitiesKHR)
    (width height : Nat) : Call.BeginRecording ∉ (r.OnResize capabilities width height).2 := by
  unfold VKRenderer.OnResize
  split <;> simp

/-- C7, counterexample: when acquisition reports out-of-date, `Begin` runs the
resize path and then still calls `BeginRecording`; when it reports another
non-success code (here device lost), `Begin` logs and still calls
`BeginRecording`. -/
theorem C7_begin_records_after_failed_acquire :
    (sampleRenderer.Begin sampleCapabilities VK_ERROR_OUT_OF_DATE_KHR).2 =
      [.SwapchainAcquireNextImage, .LUMOS_LOG_INFO, .LUMOS_LOG_INFO,
       .vkGetPhysicalDeviceSurfaceCapabilitiesKHR, .ContextOnResize 800 600,
       .BeginRecording] ∧
    (VK_ERROR_DEVICE_LOST ≠ VK_SUCCESS ∧ VK_ERROR_DEVICE_LOST ≠ VK_SUBOPTIMAL_KHR ∧
      VK_ERROR_DEVICE_LOST ≠ VK_ERROR_OUT_OF_DATE_KHR) ∧
    (sampleRenderer.Begin sampleCapabilities VK_ERROR_DEVICE_LOST).2 =
      [.SwapchainAcquireNextImage, .LUMOS_LOG_CRITICAL, .BeginRecording] := by
  decide

/-- C7, amended: for every acquisition result, `Begin` calls `BeginRecording`
exactly once, as its last call.  When the result is out-of-date, `OnResize` is
run exactly once, with the stored width and height, before recording begins;
for every other result it is not run and the renderer is unchanged: a
suboptimal result is only logged, and any other non-success code is logged as
critical. -/
theorem C7_begin_always_records (r : VKRenderer) (capabilities : VkSurfaceCapabilitiesKHR)
    (result : Int) :
    (∃ calls, (r.Begin capabilities result).2 = calls ++ [.BeginRecording] ∧
      Call.BeginRecording ∉ calls) ∧
    (result = VK_ERROR_OUT_OF_DATE_KHR →
      r.Begin capabilities result =
        ((r.OnResize capabilities r.m_Width r.m_Height).1,
          [.SwapchainAcquireNextImage, .LUMOS_LOG_INFO] ++
            (r.OnResize capabilities r.m_Width r.m_Height).2 ++ [.BeginRecording])) ∧
    (result = VK_SUBOPTIMAL_KHR →
      r.Begin capabilities result =
        (r, [.SwapchainAcquireNextImage, .LUMOS_LOG_INFO, .BeginRecording])) ∧
    (result = VK_SUCCESS →
      r.Begin capabilities result = (r, [.SwapchainAcquireNextImage, .BeginRecording])) ∧
    (result ≠ VK_ERROR_OUT_OF_DATE_KHR → result ≠ VK_SUBOPTIMAL_KHR → result ≠ VK_SUCCESS →
      r.Begin capabilities result =
        (r, [.SwapchainAcquireNextImage, .LUMOS_LOG_CRITICAL, .BeginRecording])) := by
  have hood : result = VK_ERROR_OUT_OF_DATE_KHR →
      r.Begin capabilities result =
        ((r.OnResize capabilities r.m_Width r.m_Height).1,
          [.SwapchainAcquireNextImage, .LUMOS_LOG_INFO] ++
            (r.OnResize capabilities r.m_Width r.m_Height).2 ++ [.BeginRecording]) := by
    intro h
    simp [VKRenderer.Begin, VKRenderer.AcquireNextImage, h]
  have hsub : result = VK_SUBOPTIMAL_KHR →
      r.Begin capabilities result =
        (r, [.SwapchainAcquireNextImage, .LUMOS_LOG_INFO, .BeginRecording]) := by
    intro h
    subst h
    simp [VKRenderer.Begin, VKRenderer.AcquireNextImage, VK_SUBOPTIMAL_KHR,
      VK_ERROR_OUT_OF_DATE_KHR]
  have hok : result = VK_SUCCESS →
      r.Begin capabilities result = (r, [.SwapchainAcquireNextImage, .BeginRecording]) := by
    intro h
    subst h
    simp [VKRenderer.Begin, VKRenderer.AcquireNextImage, VK_SUBOPTIMAL_KHR,
      VK_ERROR_OUT_OF_DATE_KHR, VK_SUCCESS]
  have hother : result ≠ VK_ERROR_OUT_OF_DATE_KHR → result ≠ VK_SUBOPTIMAL_KHR →
      result ≠ VK_SUCCESS →
      r.Begin capabilities result =
        (r, [.SwapchainAcquireNextImage, .LUMOS_LOG_CRITICAL, .BeginRecording]) := by
    intro h1 h2 h3
    simp [VKRenderer.Begin, VKRenderer.AcquireNextImage, h1, h2, h3]
  refine ⟨?_, hood, hsub, hok, hother⟩
  by_cases h1 : result = VK_ERROR_OUT_OF_DATE_KHR
  · refine ⟨[.SwapchainAcquireNextImage, .LUMOS_LOG_INFO] ++
      (r.OnResize capabilities r.m_Width r.m_Height).2, by rw [hood h1], ?_⟩
    have := OnResize_no_BeginRecording r capabilities r.m_Width r.m_Height
    simp [this]
  · by_cases h2 : result = VK_SUBOPTIMAL_KHR
    · exact ⟨[.SwapchainAcquireNextImage, .LUMOS_LOG_INFO], by rw [hsub h2]; rfl, by simp⟩
    · by_cases h3 : result = VK_SUCCESS
      · exact ⟨[.SwapchainAcquireNextImage], by rw [hok h3]; rfl, by simp⟩
      · exact ⟨[.SwapchainAcquireNextImage, .LUMOS_LOG_CRITICAL],
          by rw [hother h1 h2 h3]; rfl, by simp⟩

/-- C7, witness of the amended statement at an out-of-date acquisition. -/
theorem C7_begin_always_records_witness :
    sampleRenderer.Begin sampleCapabilities VK_ERROR_OUT_OF_DATE_KHR =
      ((sampleRenderer.OnResize sampleCapabilities sampleRenderer.m_Width
          sampleRenderer.m_Height).1,
        [.SwapchainAcquireNextImage, .LUMOS_LOG_INFO] ++
          (sampleRenderer.OnResize sampleCapabilities sampleRenderer.m_Width
            sampleRenderer.m_Height).2 ++ [.BeginRecording]) :=
  (C7_begin_always_records sampleRenderer sampleCapabilities VK_ERROR_OUT_OF_DATE_KHR).2.1 rfl

/-! ## The loop of `BindDescriptorSetsInternal` -/

/-- There are at most as many dynamic sets as non-null sets. -/
theorem dynamicCount_le (sets : List (Option VKDescriptorSet)) :
    dynamicCount sets ≤ (nonNullHandles sets).length := by
  induction sets with
  | nil => simp [dynamicCount, nonNullHandles]
  | cons d rest ih =>
    unfold dynamicCount nonNullHandles at *
    cases d with
    | none => simpa using ih
    | some v =>
      simp only [List.countP_cons, List.filterMap_cons, Option.map_some', List.length_cons]
      split <;> omega

/-- Writing slot `n` fixes the first `n + 1` entries of the table. -/
theorem set_take_succ (pool : List Nat) (n h : Nat) (hn : n < pool.length) :
    (pool.set n h).take (n + 1) = pool.take n ++ [h] := by
  rw [List.set_eq_take_append_cons_drop, if_pos hn, List.take_append_eq_append_take]
  simp [List.length_take, Nat.min_eq_left (Nat.le_of_lt hn)]

/-- Loop invariant of the binder: started with `n` sets counted, `d` of them
dynamic, the loop counts the remaining non-null sets and writes their handles
to the slots from `n` on, as long as they fit the table. -/
theorem bindDescriptorSetsLoop_eq (sets : List (Option VKDescriptorSet)) :
    ∀ (d n : Nat) (pool : List Nat),
      n + (nonNullHandles sets).length ≤ pool.length →
      n + (nonNullHandles sets).length < UINT32_MOD →
      d + dynamicCount sets < UINT32_MOD →
      bindDescriptorSetsLoop sets d n pool =
        some (d + dynamicCount sets, n + (nonNullHandles sets).length,
          pool.take n ++ nonNullHandles sets ++
            pool.drop (n + (nonNullHandles sets).length)) := by
  induction sets with
  | nil =>
    intro d n pool _ _ _
    simp [bindDescriptorSetsLoop, dynamicCount, nonNullHandles]
  | cons x rest ih =>
    intro d n pool hcap hn hd
    cases x with
    | none =>
      have hh : nonNullHandles (none :: rest) = nonNullHandles rest := by
        simp [nonNullHandles]
      have hc : dynamicCount (none :: rest) = dynamicCount rest := by
        simp [dynamicCount]
      rw [hh] at hcap hn ⊢
      rw [hc] at hd ⊢
      simp only [bindDescriptorSetsLoop]
      exact ih d n pool hcap hn hd
    | some v =>
      have hh : nonNullHandles (some v :: rest) = v.m_DescriptorSet :: nonNullHandles rest := by
        simp [nonNullHandles]
      have hc : dynamicCount (some v :: rest) =
          dynamicCount rest + if v.m_Dynamic = true then 1 else 0 := by
        simp [dynamicCount, List.countP_cons]
      rw [hh] at hcap hn ⊢
      rw [hc] at hd ⊢
      simp only [List.length_cons] at hcap hn ⊢
      have hlt : n < pool.length := by omega
      have hn1 : (n + 1) % UINT32_MOD = n + 1 := Nat.mod_eq_of_lt (by omega)
      simp only [bindDescriptorSetsLoop, hlt, if_true, hn1]
      by_cases hdyn : v.m_Dynamic = true
      · have hd1 : (d + 1) % UINT32_MOD = d + 1 := by
          apply Nat.mod_eq_of_lt
          simp only [hdyn, if_true] at hd
          omega
        simp only [hdyn, if_true, hd1] at hd ⊢
        rw [ih (d + 1) (n + 1) (pool.set n v.m_DescriptorSet)
          (by rw [List.length_set]; omega) (by omega) (by omega)]
        rw [set_take_succ pool n _ hlt, List.drop_set_of_lt _ _ (by omega)]
        simp only [List.append_assoc, List.singleton_append, Option.some.injEq, Prod.mk.injEq]
        refine ⟨by omega, by omega, ?_⟩
        congr 3
        omega
      · simp only [hdyn] at hd ⊢
        simp only [Bool.false_eq_true, if_false] at hd ⊢
        rw [ih d (n + 1) (pool.set n v.m_DescriptorSet)
          (by rw [List.length_set]; omega) (by omega) (by omega)]
        rw [set_take_succ pool n _ hlt, List.drop_set_of_lt _ _ (by omega)]
        simp only [List.append_assoc, List.singleton_append, Option.some.injEq, Prod.mk.injEq]
        refine ⟨by omega, by omega, ?_⟩
        congr 3
        omega

/-- The renderer and the command `BindDescriptorSetsInternal` produces when
the non-null sets fit the table. -/
theorem BindDescriptorSetsInternal_eq (r : VKRenderer) (dynamicOffset : Nat)
    (sets : List (Option VKDescriptorSet))
    (hcap : (nonNullHandles sets).length ≤ r.m_DescriptorSetPool.length)
    (hcount : (nonNullHandles sets).length < UINT32_MOD) :
    r.BindDescriptorSetsInternal dynamicOffset sets =
      some ({ r with m_DescriptorSetPool :=
                nonNullHandles sets ++ r.m_DescriptorSetPool.drop (nonNullHandles sets).length },
        [.vkCmdBindDescriptorSets
          { firstSet := 0
            descriptorSetCount := (nonNullHandles sets).length
            pDescriptorSets :=
              nonNullHandles sets ++ r.m_DescriptorSetPool.drop (nonNullHandles sets).length
            dynamicOffsetCount := dynamicCount sets
            pDynamicOffsets := [dynamicOffset] }]) := by
  have hd := dynamicCount_le sets
  have h := bindDescriptorSetsLoop_eq sets 0 0 r.m_DescriptorSetPool
    (by omega) (by omega) (by omega)
  simp only [Nat.zero_add, List.take_zero, List.nil_append] at h
  simp only [VKRenderer.BindDescriptorSetsInternal, h]

/-! ## C8 -/

/-- C8, counterexample: with two non-null sets of which none is dynamic the
bind command is given a dynamic-offset count of 0, and with two dynamic sets a
count of 2; in neither case is the count 1. -/
theorem C8_dynamic_offset_count_not_one :
    sampleRenderer.BindDescriptorSetsInternal 5 twoStaticSets =
      some ({ sampleRenderer with m_DescriptorSetPool := [7, 8, 0, 0] },
        [.vkCmdBindDescriptorSets
          { firstSet := 0, descriptorSetCount := 2, pDescriptorSets := [7, 8, 0, 0],
            dynamicOffsetCount := 0, pDynamicOffsets := [5] }]) ∧
    sampleRenderer.BindDescriptorSetsInternal 5 twoDynamicSets =
      some ({ sampleRenderer with m_DescriptorSetPool := [7, 8, 0, 0] },
        [.vkCmdBindDescriptorSets
          { firstSet := 0, descriptorSetCount := 2, pDescriptorSets := [7, 8, 0, 0],
            dynamicOffsetCount := 2, pDynamicOffsets := [5] }]) := by
  decide

/-- C8, amended: for every list of descriptor sets whose non-null entries fit
the set table, `BindDescriptorSetsInternal` issues a single bind command whose
dynamic-offset count is the number of non-null supplied sets that are dynamic,
and whose dynamic-offset pointer designates the one offset value supplied by
the caller. -/
theorem C8_dynamic_offset_count (r : VKRenderer) (dynamicOffset : Nat)
    (sets : List (Option VKDescriptorSet))
    (hcap : (nonNullHandles sets).length ≤ r.m_DescriptorSetPool.length)
    (hcount : (nonNullHandles sets).length < UINT32_MOD) :
    ∃ r1 cmd, r.BindDescriptorSetsInternal dynamicOffset sets =
        some (r1, [.vkCmdBindDescriptorSets cmd]) ∧
      cmd.dynamicOffsetCount = dynamicCount sets ∧
      cmd.pDynamicOffsets = [dynamicOffset] :=
  ⟨_, _, BindDescriptorSetsInternal_eq r dynamicOffset sets hcap hcount, rfl, rfl⟩

/-- C8, witness: three non-null sets of which exactly one is dynamic give a
dynamic-offset count of 1. -/
theorem C8_dynamic_offset_count_witness :
    (nonNullHandles threeSetsOneDynamic).length ≤ sampleRenderer.m_DescriptorSetPool.length ∧
    (nonNullHandles threeSetsOneDynamic).length < UINT32_MOD ∧
    dynamicCount threeSetsOneDynamic = 1 ∧
    ∃ r1 cmd, sampleRenderer.BindDescriptorSetsInternal 5 threeSetsOneDynamic =
        some (r1, [.vkCmdBindDescriptorSets cmd]) ∧
      cmd.dynamicOffsetCount = dynamicCount threeSetsOneDynamic ∧
      cmd.pDynamicOffsets = [5] :=
  ⟨by decide, by decide, by decide,
    C8_dynamic_offset_count sampleRenderer 5 threeSetsOneDynamic (by decide) (by decide)⟩

/-! ## C9 -/

/-- C9: for every list of descriptor sets whose number of non-null entries
does not exceed the capacity of the set table, `BindDescriptorSetsInternal`
completes without writing outside the table and issues exactly one bind
command, with first set 0, whose set count is the number of non-null entries
and whose set handles are the handles of the non-null entries in supplied
order; the table keeps its capacity and its entries past the count. -/
theorem C9_bind_covers_non_null_sets (r : VKRenderer) (dynamicOffset : Nat)
    (sets : List (Option VKDescriptorSet))
    (hcap : (nonNullHandles sets).length ≤ r.m_DescriptorSetPool.length)
    (hcount : (nonNullHandles sets).length < UINT32_MOD) :
    ∃ r1 cmd, r.BindDescriptorSetsInternal dynamicOffset sets =
        some (r1, [.vkCmdBindDescriptorSets cmd]) ∧
      cmd.firstSet = 0 ∧
      cmd.descriptorSetCount = (sets.filter Option.isSome).length ∧
      cmd.pDescriptorSets.take cmd.descriptorSetCount =
        sets.filterMap (fun d => d.map VKDescriptorSet.m_DescriptorSet) ∧
      cmd.pDescriptorSets = r1.m_DescriptorSetPool ∧
      r1.m_DescriptorSetPool.length = r.m_DescriptorSetPool.length ∧
      r1.m_DescriptorSetPool.drop cmd.descriptorSetCount =
        r.m_DescriptorSetPool.drop cmd.descriptorSetCount := by
  have hlen : (sets.filter Option.isSome).length = (nonNullHandles sets).length := by
    unfold nonNullHandles
    induction sets with
    | nil => rfl
    | cons d rest ih =>
      have ih1 := ih (by
        unfold nonNullHandles at hcap
        cases d <;> simp at hcap <;> simp [nonNullHandles] <;> omega) (by
        unfold nonNullHandles at hcount
        cases d <;> simp at hcount <;> simp [nonNullHandles] <;> omega)
      cases d <;> simp [ih1]
  refine ⟨_, _, BindDescriptorSetsInternal_eq r dynamicOffset sets hcap hcount,
    rfl, hlen.symm, ?_, rfl, ?_, ?_⟩
  · simp [nonNullHandles]
  · simp only [List.length_append, List.length_drop]
    omega
  · simp

/-- C9, witness: three non-null sets and one null entry, bound through a table
of capacity four, give a command covering the three handles in order. -/
theorem C9_bind_covers_non_null_sets_witness :
    (nonNullHandles threeSetsOneDynamic).length ≤ sampleRenderer.m_DescriptorSetPool.length ∧
    (nonNullHandles threeSetsOneDynamic).length < UINT32_MOD ∧
    (∃ r1 cmd, sampleRenderer.BindDescriptorSetsInternal 5 threeSetsOneDynamic =
        some (r1, [.vkCmdBindDescriptorSets cmd]) ∧
      cmd.firstSet = 0 ∧
      cmd.descriptorSetCount = (threeSetsOneDynamic.filter Option.isSome).length ∧
      cmd.pDescriptorSets.take cmd.descriptorSetCount =
        threeSetsOneDynamic.filterMap (fun d => d.map VKDescriptorSet.m_DescriptorSet) ∧
      cmd.pDescriptorSets = r1.m_DescriptorSetPool ∧
      r1.m_DescriptorSetPool.length = sampleRenderer.m_DescriptorSetPool.length ∧
      r1.m_DescriptorSetPool.drop cmd.descriptorSetCount =
        sampleRenderer.m_DescriptorSetPool.drop cmd.descriptorSetCount) ∧
    sampleRenderer.BindDescriptorSetsInternal 5 threeSetsOneDynamic =
      some ({ sampleRenderer with m_DescriptorSetPool := [11, 12, 13, 0] },
        [.vkCmdBindDescriptorSets
          { firstSet := 0, descriptorSetCount := 3, pDescriptorSets := [11, 12, 13, 0],
            dynamicOffsetCount := 1, pDynamicOffsets := [5] }]) :=
  ⟨by decide, by decide,
    C9_bind_covers_non_null_sets sampleRenderer 5 threeSetsOneDynamic (by decide) (by decide),
    by decide⟩

/-! ## C10 -/

/-- C10: `OnResize` behaves as the reference: a zero width or height changes
nothing and triggers no call; otherwise the extent stored and forwarded
downstream is the request clamped to the reported minimum and maximum image
extent, which lies between them when minimum is at most maximum and is the
request itself when the request is within range. -/
theorem C10_on_resize_clamps (r : VKRenderer) (capabilities : VkSurfaceCapabilitiesKHR)
    (w h : Nat) :
    r.OnResize capabilities w h = OnResize_reference r capabilities w h ∧
    (w = 0 ∨ h = 0 → r.OnResize capabilities w h = (r, [])) ∧
    (w ≠ 0 → h ≠ 0 →
      (r.OnResize capabilities w h).1.m_Width =
        max capabilities.minImageExtent.width (min capabilities.maxImageExtent.width w) ∧
      (r.OnResize capabilities w h).1.m_Height =
        max capabilities.minImageExtent.height (min capabilities.maxImageExtent.height h) ∧
      (r.OnResize capabilities w h).1.m_DescriptorSetPool = r.m_DescriptorSetPool ∧
      (r.OnResize capabilities w h).2 =
        [.LUMOS_LOG_INFO, .vkGetPhysicalDeviceSurfaceCapabilitiesKHR,
         .ContextOnResize (r.OnResize capabilities w h).1.m_Width
           (r.OnResize capabilities w h).1.m_Height] ∧
      (capabilities.minImageExtent.width ≤ capabilities.maxImageExtent.width →
        capabilities.minImageExtent.width ≤ (r.OnResize capabilities w h).1.m_Width ∧
        (r.OnResize capabilities w h).1.m_Width ≤ capabilities.maxImageExtent.width) ∧
      (capabilities.minImageExtent.height ≤ capabilities.maxImageExtent.height →
        capabilities.minImageExtent.height ≤ (r.OnResize capabilities w h).1.m_Height ∧
        (r.OnResize capabilities w h).1.m_Height ≤ capabilities.maxImageExtent.height) ∧
      (capabilities.minImageExtent.width ≤ w → w ≤ capabilities.maxImageExtent.width →
        capabilities.minImageExtent.height ≤ h → h ≤ capabilities.maxImageExtent.height →
        (r.OnResize capabilities w h).1.m_Width = w ∧
        (r.OnResize capabilities w h).1.m_Height = h)) := by
  refine ⟨?_, ?_, ?_⟩
  · unfold VKRenderer.OnResize OnResize_reference
    split <;> rfl
  · intro hz
    simp [VKRenderer.OnResize, hz]
  · intro hw hh
    have hnz : ¬ (w = 0 ∨ h = 0) := by omega
    have heq : r.OnResize capabilities w h =
        ({ r with
            m_Width := max capabilities.minImageExtent.width
              (min capabilities.maxImageExtent.width w)
            m_Height := max capabilities.minImageExtent.height
              (min capabilities.maxImageExtent.height h) },
          [.LUMOS_LOG_INFO, .vkGetPhysicalDeviceSurfaceCapabilitiesKHR,
           .ContextOnResize
             (max capabilities.minImageExtent.width (min capabilities.maxImageExtent.width w))
             (max capabilities.minImageExtent.height
               (min capabilities.maxImageExtent.height h))]) := by
      simp only [VKRenderer.OnResize, hnz, if_false]
    rw [heq]
    refine ⟨rfl, rfl, rfl, rfl, ?_, ?_, ?_⟩
    · intro hmm; simp only; omega
    · intro hmm; simp only; omega
    · intro h1 h2 h3 h4; simp only; omega

/-- C10, witness: a request of width 0 leaves an 800 by 600 renderer unchanged
and triggers nothing; a request of 5000 by 300 against extents from 1 by 1 to
4096 by 4096 stores and forwards 4096 by 300. -/
theorem C10_on_resize_clamps_witness :
    sampleRenderer.OnResize sampleCapabilities 0 720 = (sampleRenderer, []) ∧
    sampleRenderer.OnResize sampleCapabilities 5000 300 =
      ({ sampleRenderer with m_Width := 4096, m_Height := 300 },
        [.LUMOS_LOG_INFO, .vkGetPhysicalDeviceSurfaceCapabilitiesKHR,
         .ContextOnResize 4096 300]) :=
  ⟨(C10_on_resize_clamps sampleRenderer sampleCapabilities 0 720).2.1 (Or.inl rfl),
    (C10_on_resize_clamps sampleRenderer sampleCapabilities 5000 300).1.trans (by decide)⟩

/-! ## The loop of `ReadShaderFile` -/

/-- One iteration of the loop of `ReadShaderFile`, in terms of the kind of the
line. -/
theorem ReadShaderFile_cons (line : List Char) (rest : List (List Char))
    (type : ShaderType) (shaders : StageMap) :
    ReadShaderFile (line :: rest) type shaders =
      if isMarkerLine line then
        match markerKind line with
        | none => ReadShaderFile rest type shaders
        | some stage =>
          if stage = .UNKNOWN then ReadShaderFile rest .UNKNOWN shaders
          else ReadShaderFile rest stage (shaders.insert stage)
      else if type ≠ .UNKNOWN then
        match shaders.appendAt type line with
        | none => none
        | some shaders1 => ReadShaderFile rest type shaders1
      else ReadShaderFile rest type shaders := by
  simp only [ReadShaderFile, isMarkerLine, markerKind]
  split_ifs <;> simp_all

/-- A marker line contributes no body line and may change the stage in force. -/
theorem regionBody_cons_marker (stage : ShaderType) (line : List Char)
    (rest : List (List Char)) (type : ShaderType) (hm : isMarkerLine line = true) :
    regionBody stage (line :: rest) type =
      regionBody stage rest ((markerKind line).getD type) := by
  simp [regionBody, regionLines, hm]

/-- A non-marker line belongs to the body of the stage in force. -/
theorem regionBody_cons_body (stage : ShaderType) (line : List Char)
    (rest : List (List Char)) (type : ShaderType) (hm : ¬ isMarkerLine line = true) :
    regionBody stage (line :: rest) type =
      (if type = stage then line else []) ++ regionBody stage rest type := by
  by_cases hts : type = stage
  · simp [regionBody, regionLines, hm, hts]
  · simp [regionBody, regionLines, hm, hts]

/-- The markers of a text are the marker of its first line and those of the
other lines. -/
theorem stageMarked_cons (stage : ShaderType) (line : List Char) (rest : List (List Char)) :
    stageMarked stage (line :: rest) =
      ((isMarkerLine line && markerKind line == some stage) || stageMarked stage rest) := by
  simp [stageMarked]

/-- Loop invariant of `ReadShaderFile`.  Started with a stage that is `UNKNOWN`
or a key of the map, the loop completes; the final stage is again `UNKNOWN` or
a key, the key `UNKNOWN` is untouched, and the body of every other stage grows
by the lines of its regions, a stage becoming a key as soon as one of its
markers is read. -/
theorem ReadShaderFile_spec (lines : List (List Char)) :
    ∀ (type : ShaderType) (shaders : StageMap),
      (type = .UNKNOWN ∨ (shaders type).isSome = true) →
      ∃ type1 shaders1, ReadShaderFile lines type shaders = some (type1, shaders1) ∧
        (type1 = .UNKNOWN ∨ (shaders1 type1).isSome = true) ∧
        shaders1 .UNKNOWN = shaders .UNKNOWN ∧
        ∀ stage, stage ≠ .UNKNOWN →
          shaders1 stage =
            match shaders stage with
            | some body => some (body ++ regionBody stage lines type)
            | none =>
              if stageMarked stage lines then some (regionBody stage lines type) else none := by
  induction lines with
  | nil =>
    intro type shaders h
    refine ⟨type, shaders, rfl, h, rfl, ?_⟩
    intro stage _
    cases hs : shaders stage <;> simp [regionBody, regionLines, stageMarked]
  | cons line rest ih =>
    intro type shaders h
    rw [ReadShaderFile_cons]
    by_cases hm : isMarkerLine line = true
    · simp only [hm, if_true]
      cases hk : markerKind line with
      | none =>
        obtain ⟨t1, m1, h1, hinv, hu, hb⟩ := ih type shaders h
        refine ⟨t1, m1, h1, hinv, hu, ?_⟩
        intro stage hs
        rw [hb stage hs, regionBody_cons_marker stage line rest type hm, stageMarked_cons, hk]
        simp [hm]
      | some t =>
        by_cases ht : t = .UNKNOWN
        · subst ht
          obtain ⟨t1, m1, h1, hinv, hu, hb⟩ := ih .UNKNOWN shaders (Or.inl rfl)
          refine ⟨t1, m1, by simpa using h1, hinv, hu, ?_⟩
          intro stage hs
          have hne : ¬ (ShaderType.UNKNOWN = stage) := fun h => hs h.symm
          rw [hb stage hs, regionBody_cons_marker stage line rest type hm, stageMarked_cons, hk]
          simp [hm, hne]
        · have hins : ((shaders.insert t) t).isSome = true := by
            simp only [StageMap.insert, if_true]
            cases shaders t <;> rfl
          obtain ⟨t1, m1, h1, hinv, hu, hb⟩ := ih t (shaders.insert t) (Or.inr hins)
          refine ⟨t1, m1, by simpa [ht] using h1, hinv, ?_, ?_⟩
          · rw [hu]
            have hne : ¬ (ShaderType.UNKNOWN = t) := fun h => ht h.symm
            simp [StageMap.insert, hne]
          · intro stage hs
            rw [hb stage hs, regionBody_cons_marker stage line rest type hm, stageMarked_cons, hk]
            by_cases hst : stage = t
            · subst hst
              cases hsh : shaders stage <;> simp [StageMap.insert, hsh, hm]
            · have hts : ¬ (t = stage) := fun h => hst h.symm
              cases hsh : shaders stage <;> simp [StageMap.insert, hsh, hm, hst, hts]
    · simp only [hm, Bool.false_eq_true, if_false]
      by_cases htu : type = .UNKNOWN
      · subst htu
        obtain ⟨t1, m1, h1, hinv, hu, hb⟩ := ih .UNKNOWN shaders (Or.inl rfl)
        refine ⟨t1, m1, by simpa using h1, hinv, hu, ?_⟩
        intro stage hs
        have hne : ¬ (ShaderType.UNKNOWN = stage) := fun h => hs h.symm
        rw [hb stage hs, regionBody_cons_body stage line rest .UNKNOWN hm, stageMarked_cons]
        simp [hm, hne]
      · have hkey : (shaders type).isSome = true := h.resolve_left htu
        obtain ⟨body, hbody⟩ := Option.isSome_iff_exists.mp hkey
        have happ : shaders.appendAt type line =
            some fun key => if key = type then some (body ++ line) else shaders key := by
          simp [StageMap.appendAt, hbody]
        obtain ⟨t1, m1, h1, hinv, hu, hb⟩ :=
          ih type (fun key => if key = type then some (body ++ line) else shaders key)
            (Or.inr (by simp))
        refine ⟨t1, m1, by simpa [htu, happ] using h1, hinv, ?_, ?_⟩
        · rw [hu]
          have hne : ¬ (ShaderType.UNKNOWN = type) := fun h => htu h.symm
          simp [hne]
        · intro stage hs
          rw [hb stage hs, regionBody_cons_body stage line rest type hm, stageMarked_cons]
          by_cases hst : stage = type
          · subst hst
            simp [hbody, hm]
          · have hts : ¬ (type = stage) := fun h => hst h.symm
            cases hsh : shaders stage <;> simp [hsh, hm, hst, hts]

/-- Running the loop over a text is running it over a first part and then,
from the stage and map reached, over the remainder. -/
theorem ReadShaderFile_append (l1 l2 : List (List Char)) :
    ∀ (type : ShaderType) (shaders : StageMap),
      ReadShaderFile (l1 ++ l2) type shaders =
        match ReadShaderFile l1 type shaders with
        | none => none
        | some (type1, shaders1) => ReadShaderFile l2 type1 shaders1 := by
  induction l1 with
  | nil => intro type shaders; simp [ReadShaderFile]
  | cons line rest ih =>
    intro type shaders
    simp only [List.cons_append, ReadShaderFile_cons]
    by_cases hm : isMarkerLine line = true
    · simp only [hm, if_true]
      cases hk : markerKind line with
      | none => exact ih type shaders
      | some t =>
        by_cases ht : t = .UNKNOWN
        · simp only [ht, if_true]; exact ih _ _
        · simp only [ht, if_false]; exact ih _ _
    · simp only [hm, Bool.false_eq_true, if_false]
      by_cases htu : type = .UNKNOWN
      · simp only [htu, ne_eq, not_true_eq_false, if_false]; exact ih _ _
      · simp only [ne_eq, htu, not_false_eq_true, if_true]
        cases happ : shaders.appendAt type line with
        | none => rfl
        | some shaders1 => exact ih _ _

/-- Without the reset of `PreProcess` the lookup can fail: entered with the
stale stage `VERTEX` and an empty map, the loop fails on a first non-marker
line. -/
theorem ReadShaderFile_stale_stage_fails :
    (ReadShaderFile ["x".toList] .VERTEX StageMap.empty).isNone = true := by
  decide

/-! ## C11 -/

/-- C11, counterexample: for a vertex region whose only line begins with a
tab, the body recorded for the vertex stage is that line with its tab, not the
line with the tab stripped. -/
theorem C11_recorded_body_keeps_tab :
    (PreProcess tabbedVertexSource StageMap.empty).map (fun p => p.2 .VERTEX) =
      some (some (TAB :: "main.vert.spv".toList)) ∧
    TAB ∈ TAB :: "main.vert.spv".toList ∧
    StringUtilities.StringReplace (TAB :: "main.vert.spv".toList) TAB ≠
      TAB :: "main.vert.spv".toList := by
  decide

/-- C11, amended: for every shader source text, `PreProcess` (called on an
empty map, as `Init` does) completes, and the body it records for each stage
named by a marker is the in-order concatenation of the non-marker lines of the
regions of that stage, each line as it stands in the source: tabs are removed
only from the copy of the line used to recognise markers, so they stay in the
body.  A stage without a marker gets no entry. -/
theorem C11_body_is_concatenation_of_region_lines (source : List Char) :
    ∃ type shaders, PreProcess source StageMap.empty = some (type, shaders) ∧
      ∀ stage, stage ≠ .UNKNOWN →
        shaders stage =
          if stageMarked stage (StringUtilities.GetLines source) then
            some (regionBody stage (StringUtilities.GetLines source) .UNKNOWN)
          else none := by
  obtain ⟨type, shaders, h, _, _, hb⟩ :=
    ReadShaderFile_spec (StringUtilities.GetLines source) .UNKNOWN StageMap.empty (Or.inl rfl)
  refine ⟨type, shaders, h, ?_⟩
  intro stage hs
  rw [hb stage hs]
  rfl

/-- C11, the amended statement at a text with a stray first line, an
unrecognised marker, two vertex regions and a fragment region: the vertex body
is `abd`, the fragment body `c`, and the compute stage has no entry. -/
theorem C11_body_is_concatenation_of_region_lines_witness :
    (∃ type shaders, PreProcess unevenSource StageMap.empty = some (type, shaders) ∧
      ∀ stage, stage ≠ .UNKNOWN →
        shaders stage =
          if stageMarked stage (StringUtilities.GetLines unevenSource) then
            some (regionBody stage (StringUtilities.GetLines unevenSource) .UNKNOWN)
          else none) ∧
    (PreProcess unevenSource StageMap.empty).map
        (fun p => (p.2 .VERTEX, p.2 .FRAGMENT, p.2 .COMPUTE)) =
      some (some "abd".toList, some "c".toList, none) :=
  ⟨C11_body_is_concatenation_of_region_lines unevenSource, by decide⟩

/-! ## C12 -/

/-- C12: for every shader source text and every map handed to it, `PreProcess`
completes without a failed lookup `shaders->at(type)`.  After any number of
lines the loop has reached a stage that is `UNKNOWN` or a key of the map, from
which the remaining lines are processed; the key `UNKNOWN` is never added, so
starting from a map without it (the empty map of `Init`) the keys of the result
are among the six stage kinds. -/
theorem C12_lookup_never_fails (source : List Char) (sources : StageMap) :
    (∃ type shaders, PreProcess source sources = some (type, shaders) ∧
      (type = .UNKNOWN ∨ (shaders type).isSome = true) ∧
      shaders .UNKNOWN = sources .UNKNOWN ∧
      (sources .UNKNOWN = none → ∀ key, (shaders key).isSome = true →
        key = .VERTEX ∨ key = .FRAGMENT ∨ key = .GEOMETRY ∨
        key = .TESSELLATION_CONTROL ∨ key = .TESSELLATION_EVALUATION ∨ key = .COMPUTE)) ∧
    (∀ n, ∃ type shaders,
      ReadShaderFile ((StringUtilities.GetLines source).take n) .UNKNOWN sources =
        some (type, shaders) ∧
      (type = .UNKNOWN ∨ (shaders type).isSome = true) ∧
      PreProcess source sources =
        ReadShaderFile ((StringUtilities.GetLines source).drop n) type shaders) := by
  refine ⟨?_, ?_⟩
  · obtain ⟨type, shaders, h, hinv, hu, _⟩ :=
      ReadShaderFile_spec (StringUtilities.GetLines source) .UNKNOWN sources (Or.inl rfl)
    refine ⟨type, shaders, h, hinv, hu, ?_⟩
    intro hnone key hkey
    cases key <;> simp_all
  · intro n
    obtain ⟨type, shaders, h, hinv, _, _⟩ :=
      ReadShaderFile_spec ((StringUtilities.GetLines source).take n) .UNKNOWN sources
        (Or.inl rfl)
    refine ⟨type, shaders, h, hinv, ?_⟩
    have happ := ReadShaderFile_append ((StringUtilities.GetLines source).take n)
      ((StringUtilities.GetLines source).drop n) .UNKNOWN sources
    rw [List.take_append_drop, h] at happ
    exact happ

/-- C12, at a text with a stray first line, an unrecognised marker, repeated
vertex markers and no final end marker: `PreProcess` completes, in stage
`VERTEX`, with exactly the keys `VERTEX` and `FRAGMENT`. -/
theorem C12_lookup_never_fails_witness :
    (∃ type shaders, PreProcess unevenSource StageMap.empty = some (type, shaders) ∧
      (type = .UNKNOWN ∨ (shaders type).isSome = true) ∧
      shaders .UNKNOWN = StageMap.empty .UNKNOWN) ∧
    (PreProcess unevenSource StageMap.empty).map
        (fun p => (p.1, [ShaderType.VERTEX, .FRAGMENT, .GEOMETRY, .TESSELLATION_CONTROL,
          .TESSELLATION_EVALUATION, .COMPUTE, .UNKNOWN].filter fun key => (p.2 key).isSome)) =
      some (.VERTEX, [.VERTEX, .FRAGMENT]) :=
  ⟨(C12_lookup_never_fails unevenSource StageMap.empty).1.imp
      (fun _ h => h.imp (fun _ h1 => ⟨h1.1, h1.2.1, h1.2.2.1⟩)),
    by decide⟩

end Graphics
end Lumos
